import Mathlib

/-!
Verification of the Reference Extraction & Citation Analysis Engine
(repository: janetyc/assessment-tool; sources: src/citation_analyzer.py,
src/enhanced-pdf-extractor.py).

The Python sources are shallowly embedded here.  Text is modelled as
`List Char` (`Str`); Python regular expressions are hand-compiled to
executable matchers over `Str`, each carrying a doc comment quoting the
original pattern; the mutable `RATE_LIMITS` dictionary becomes explicit
state passing; wall-clock timestamps become integers (seconds); network
calls (`requests.head` / `requests.get`) become an injected resolver
oracle together with an explicit trace of the calls that were issued;
Python floats in the style scorer become exact rationals.

Functions identical in both Python files (the two files are
near-duplicate modules) are embedded once, with both locations noted.
-/

namespace PDFCitation

/-- Program text is modelled as a list of characters. -/
abbrev Str := List Char

/-- Coerce a Lean string literal to the `List Char` model. -/
def strL (s : String) : Str := s.data

/-! ## Python string primitives

ASCII renditions of the Python `str` operations the sources use.  The
documents this engine processes are ASCII, so the ASCII subsets of the
Python (unicode) predicates are used throughout. -/

/-- Python whitespace (`str.isspace`, regex `\s`), ASCII subset. -/
def pyIsSpace (c : Char) : Bool :=
  c == ' ' || c == '\t' || c == '\n' || c == '\r' || c == '\x0B' || c == '\x0C'

/-- Regex `\d` / character range `0-9`. -/
def isDigitCh (c : Char) : Bool := '0' ≤ c && c ≤ '9'

/-- Regex class `[A-Z]`. -/
def isUpperCh (c : Char) : Bool := 'A' ≤ c && c ≤ 'Z'

/-- Regex class `[a-z]`. -/
def isLowerCh (c : Char) : Bool := 'a' ≤ c && c ≤ 'z'

/-- Any ASCII letter: what `[A-Z]` or `[a-z]` matches under `re.IGNORECASE`. -/
def isLetterCh (c : Char) : Bool := isUpperCh c || isLowerCh c

/-- Regex `\w` (ASCII subset). -/
def isWordCh (c : Char) : Bool := isLetterCh c || isDigitCh c || c == '_'

/-- Python `str.lower` on one character (ASCII range, like `Char.toLower`). -/
def toLowerCh (c : Char) : Char := c.toLower

/-- Python `str.lower`. -/
def toLowerStr (s : Str) : Str := s.map toLowerCh

/-- Python `str.lstrip()`. -/
def pyLstrip (s : Str) : Str := s.dropWhile pyIsSpace

/-- Python `str.rstrip()`: keep everything up to the trailing whitespace
run (phrased with `take` so that occurrence lemmas go through `drop` and
`take` only). -/
def pyRstrip (s : Str) : Str :=
  s.take (s.length - (s.reverse.takeWhile pyIsSpace).length)

/-- Python `str.strip()`. -/
def pyStrip (s : Str) : Str := pyRstrip (pyLstrip s)

/-- Python `str.strip(chars)`: strip the characters of `cs` from both ends. -/
def pyStripChars (cs : Str) (s : Str) : Str :=
  let p := fun c => cs.contains c
  let u := s.dropWhile p
  u.take (u.length - (u.reverse.takeWhile p).length)

/-- Python substring test `needle in hay`. -/
def occursIn (needle : Str) (hay : Str) : Bool :=
  match hay with
  | [] => needle.isPrefixOf []
  | c :: t => needle.isPrefixOf (c :: t) || occursIn needle t

/-- Python `str.find`: index of the first occurrence, if any. -/
def findSub (needle : Str) (hay : Str) : Option Nat :=
  match hay with
  | [] => if needle.isPrefixOf [] then some 0 else none
  | c :: t =>
    if needle.isPrefixOf (c :: t) then some 0
    else (findSub needle t).map (· + 1)

/-- Python `str.endswith` for a single-character suffix. -/
def endsWithCh (s : Str) (c : Char) : Bool := s.getLast? == some c

/-- Python `str.split(sep)` for a one-character separator. -/
def splitOnCh (sep : Char) : Str → List Str
  | [] => [[]]
  | c :: t =>
    match splitOnCh sep t with
    | [] => []
    | h :: r => if c == sep then [] :: h :: r else (c :: h) :: r

/-- Python `sep.join(parts)`. -/
def joinWith (sep : Str) : List Str → Str
  | [] => []
  | [s] => s
  | s :: r => s ++ sep ++ joinWith sep r

/-- Helper for `str.split()` (no separator: split on whitespace runs,
dropping empty fields); `acc` is the current token, reversed. -/
def pySplitWsAux : Str → Str → List Str
  | [], acc => if acc.isEmpty then [] else [acc.reverse]
  | c :: t, acc =>
    if pyIsSpace c then
      if acc.isEmpty then pySplitWsAux t [] else acc.reverse :: pySplitWsAux t []
    else pySplitWsAux t (c :: acc)

/-- Python `str.split()` with no arguments. -/
def pySplitWs (s : Str) : List Str := pySplitWsAux s []

/-! ## Regex machinery

The Python sources use `re` patterns.  Each pattern is hand-compiled to a
matcher of type `RM`: a function from an input suffix to the list of
possible remainders after a match starting at that position, ordered by
the backtracking preference of the Python engine (greedy quantifiers
longest-remainder-consumed first, lazy quantifiers shortest first,
alternation left branch first).  A pattern matches at a position iff the
list is nonempty; the head of the list is the remainder of the preferred
match, from which the match length and capture slices are recovered. -/

/-- A backtracking matcher: all possible remainders, in preference order. -/
abbrev RM := Str → List Str

/-- The empty pattern. -/
def rmEps : RM := fun s => [s]

/-- A literal (case-sensitive). -/
def rmLit (l : Str) : RM := fun s =>
  if l.isPrefixOf s then [s.drop l.length] else []

/-- A literal under `re.IGNORECASE` (given in lowercase). -/
def rmLitCI (l : Str) : RM := fun s =>
  if toLowerStr (s.take l.length) = l then [s.drop l.length] else []

/-- A single character of a class. -/
def rmOne (p : Char → Bool) : RM := fun s =>
  match s with
  | c :: t => if p c then [t] else []
  | [] => []

/-- Remainders of a greedy character-class star, longest match first. -/
def rmStarAux (p : Char → Bool) : Str → List Str
  | [] => [[]]
  | c :: t => if p c then rmStarAux p t ++ [c :: t] else [c :: t]

/-- Greedy `p*` over a character class. -/
def rmStarCh (p : Char → Bool) : RM := rmStarAux p

/-- Greedy `p+` over a character class. -/
def rmPlusCh (p : Char → Bool) : RM := fun s =>
  match s with
  | c :: t => if p c then rmStarAux p t else []
  | [] => []

/-- Remainders of a lazy character star (`p*?`), shortest match first. -/
def rmLazyAux (p : Char → Bool) : Str → List Str
  | [] => [[]]
  | c :: t => (c :: t) :: (if p c then rmLazyAux p t else [])

/-- Lazy `.*?` (a dot matches anything but a newline). -/
def rmDotLazyStar : RM := rmLazyAux (fun c => c != '\n')

/-- Sequential composition. -/
def rmSeq (a b : RM) : RM := fun s => (a s).flatMap b

/-- Sequence of a list of matchers. -/
def rmCat (ms : List RM) : RM := fun s =>
  ms.foldl (fun rs m => rs.flatMap m) [s]

/-- Alternation, left branch preferred. -/
def rmAlt (ms : List RM) : RM := fun s => ms.flatMap (fun m => m s)

/-- Greedy option `m?`. -/
def rmOpt (m : RM) : RM := fun s => m s ++ [s]

/-- An exact repetition `m{n}`. -/
def rmRep (n : Nat) (m : RM) : RM := rmCat (List.replicate n m)

/-- Fueled greedy star of an arbitrary matcher, more iterations
preferred; iterations that consume nothing are discarded (as in the
Python engine, which refuses empty loop iterations). -/
def rmStarM (m : RM) : Nat → RM
  | 0 => fun s => [s]
  | fuel + 1 => fun s =>
    ((m s).filter (fun r => r.length < s.length)).flatMap (rmStarM m fuel) ++ [s]

/-- Greedy `m*` of an arbitrary matcher. -/
def rmStar (m : RM) : RM := fun s => rmStarM m s.length s

/-- The anchor `$` without `re.MULTILINE`: end of input, or just before a
final newline. -/
def rmEnd : RM := fun s => if s = [] || s = ['\n'] then [s] else []

/-- Zero-width test that the next character is not a word character (the
second `\b` in patterns of the form `..\d{4}\b..`, where the preceding
character is known to be a word character). -/
def rmNoWordAhead : RM := fun s =>
  match s with
  | [] => [[]]
  | c :: t => if isWordCh c then [] else [c :: t]

/-- Does the pattern match at the start of `s` (`re.match`)? -/
def rmMatches (m : RM) (s : Str) : Bool := !(m s).isEmpty

/-- Does the pattern match anywhere (`re.search`)? -/
def rmSearch (m : RM) : Str → Bool
  | [] => rmMatches m []
  | c :: t => rmMatches m (c :: t) || rmSearch m t

/-- Leftmost scanning: try `f` at every suffix, leftmost position first
(the scan of `re.search`). -/
def scanFirst {α : Type} (f : Str → Option α) : Str → Option α
  | [] => f []
  | c :: t =>
    match f (c :: t) with
    | some x => some x
    | none => scanFirst f t

/-- Capture of a single-group pattern `pre (grp) post` matched at the
start of `s0`: enumerate the remainders of `pre`, then of `grp`, in
backtracking preference order, and return the slice consumed by `grp` in
the first combination where `post` can also match (the engine's choice
of `group(i)`). -/
def capMid (pre grp post : RM) (s0 : Str) : Option Str :=
  (pre s0).findSome? (fun r =>
    (grp r).findSome? (fun r2 =>
      if (post r2).isEmpty then none
      else some (r.take (r.length - r2.length))))

/-- The group of `re.search(pre(grp)post, s).group(i)`. -/
def rmSearchGroupMid (pre grp post : RM) (s : Str) : Option Str :=
  scanFirst (capMid pre grp post) s

/-- The group of `re.match(pre(grp)post, s).group(i)` (anchored). -/
def rmMatchGroupMid (pre grp post : RM) (s : Str) : Option Str :=
  capMid pre grp post s

/-- One step of `re.findall` scanning (non-overlapping, left to right):
`m` receives a flag telling whether the position is at a line start (for
`re.MULTILINE` anchors).  Zero-width matches cannot arise with the
patterns below; if one did, the scanner steps one character.  `fuel`
bounds the recursion. -/
def findallGo (m : Bool → RM) : Nat → Bool → Str → Nat
  | 0, _, _ => 0
  | _ + 1, _, [] => 0
  | fuel + 1, atLS, c :: t =>
    match (m atLS (c :: t)).head? with
    | some r =>
      let len := (c :: t).length - r.length
      if len = 0 then findallGo m fuel (c == '\n') t
      else 1 + findallGo m fuel ((((c :: t).take len).getLast?) == some '\n')
            ((c :: t).drop len)
    | none => findallGo m fuel (c == '\n') t

/-- Number of matches `len(re.findall(pattern, s, re.MULTILINE | ...))`. -/
def findallCount (m : Bool → RM) (s : Str) : Nat :=
  findallGo m (s.length + 1) true s

/-! ## Deterministic consumers for the header recognizer

The reference-header patterns of `split_body_and_references` factor into
deterministic consumption (their character classes are disjoint from
what follows, so greedy matching never needs to backtrack) followed by a
header alternation.  They are embedded with the `d`-combinators below,
whose results are always suffixes of their input (a `drop`), which is
what the no-header-no-split theorem for C1 rests on. -/

/-- Consume an exact literal. -/
def dLit (l : Str) (s : Str) : Option Str :=
  if l.isPrefixOf s then some (s.drop l.length) else none

/-- Consume one or more characters of a class, greedily (`p+`). -/
def dPlus (p : Char → Bool) (s : Str) : Option Str :=
  match s with
  | c :: t => if p c then some (t.dropWhile p) else none
  | [] => none

/-- Consume zero or more characters of a class (`p*`). -/
def dStar (p : Char → Bool) (s : Str) : Str := s.dropWhile p

/-- Consume one optional character (`c?`). -/
def dOptCh (c : Char) (s : Str) : Str :=
  match s with
  | x :: t => if x == c then t else x :: t
  | [] => []

/-! ## Citation style registry

Embedding of the `CitationStyle` dataclass and the `CITATION_STYLES`
dictionary (citation_analyzer.py lines 43-122; identical modulo comments
in enhanced-pdf-extractor.py lines 56-155).  Each regex field is
hand-compiled: `match_patterns` are matched under `re.IGNORECASE` (so the
letter classes `[A-Z]`/`[a-z]` match any ASCII letter and word literals
are case-insensitive), while `year_pattern` and `author_pattern` are
searched with no flags (case-sensitive).  A pattern anchored with `^` is
wrapped with `rmMatches` (search of an anchored pattern only ever matches
at the start), an unanchored one with `rmSearch`. -/

/-- Shorthand: `\s+`. -/
def rmWs1 : RM := rmPlusCh pyIsSpace

/-- Shorthand: `\s*`. -/
def rmWs0 : RM := rmStarCh pyIsSpace

/-- Shorthand: `\d+`. -/
def rmD1 : RM := rmPlusCh isDigitCh

/-- Shorthand: `\d{4}`. -/
def rmD4 : RM := rmRep 4 (rmOne isDigitCh)

/-- Shorthand: `[A-Z]` (case-sensitive). -/
def rmUC : RM := rmOne isUpperCh

/-- Shorthand: `[a-z]+` (case-sensitive). -/
def rmLC1 : RM := rmPlusCh isLowerCh

/-- Shorthand: `[A-Z]` or `[a-z]` under `re.IGNORECASE`: any ASCII letter. -/
def rmAL : RM := rmOne isLetterCh

/-- Shorthand: `[A-Z]+` or `[a-z]+` under `re.IGNORECASE`. -/
def rmAL1 : RM := rmPlusCh isLetterCh

/-- Shorthand: literal `.`. -/
def rmDot : RM := rmLit (strL ".")

/-- Shorthand: literal `,`. -/
def rmComma : RM := rmLit (strL ",")

/-- Shorthand: literal double quote. -/
def rmQuote : RM := rmLit (strL "\"")

/-- Shorthand: `[^"]+`. -/
def rmNotQuote1 : RM := rmPlusCh (fun c => c != '"')

/-- Shorthand: `[-–]` (hyphen or en dash). -/
def rmDash : RM := rmOne (fun c => c == '-' || c == '–')

/-- Shorthand: literal `(`. -/
def rmLP : RM := rmLit (strL "(")

/-- Shorthand: literal `)`. -/
def rmRP : RM := rmLit (strL ")")

/-- Shorthand: `\[\d+\]\s*` (bracketed reference number). -/
def rmBracketNum : RM := rmCat [rmLit (strL "["), rmD1, rmLit (strL "]"), rmWs0]

/-- APA pattern 1 (IGNORECASE):
`^[A-Z][a-z]+,\s+[A-Z]\.\s*(?:[A-Z]\.\s*)?(?:,?\s*&\s*[A-Z][a-z]+,\s+[A-Z]\.\s*(?:[A-Z]\.\s*)?)?\s*\(\d{4}\)`. -/
def apaP1 : RM := rmCat [rmAL, rmAL1, rmComma, rmWs1, rmAL, rmDot, rmWs0,
  rmOpt (rmCat [rmAL, rmDot, rmWs0]),
  rmOpt (rmCat [rmOpt rmComma, rmWs0, rmLit (strL "&"), rmWs0,
    rmAL, rmAL1, rmComma, rmWs1, rmAL, rmDot, rmWs0,
    rmOpt (rmCat [rmAL, rmDot, rmWs0])]),
  rmWs0, rmLP, rmD4, rmRP]

/-- APA pattern 2 (IGNORECASE):
`^[A-Z][a-z]+,\s+[A-Z]\.\s*(?:[A-Z]\.\s*)?\s*\(\d{4}\).*?\.\s*[A-Z][a-z]+.*?,\s*\d+\s*\(\d+\),\s*\d+[-–]\d+`. -/
def apaP2 : RM := rmCat [rmAL, rmAL1, rmComma, rmWs1, rmAL, rmDot, rmWs0,
  rmOpt (rmCat [rmAL, rmDot, rmWs0]), rmWs0, rmLP, rmD4, rmRP,
  rmDotLazyStar, rmDot, rmWs0, rmAL, rmAL1, rmDotLazyStar, rmComma, rmWs0,
  rmD1, rmWs0, rmLP, rmD1, rmRP, rmComma, rmWs0, rmD1, rmDash, rmD1]

/-- APA pattern 3 (IGNORECASE):
`^[A-Z][a-z]+,\s+[A-Z]\.\s*(?:[A-Z]\.\s*)?,\s*et\s+al\.\s*\(\d{4}\)`. -/
def apaP3 : RM := rmCat [rmAL, rmAL1, rmComma, rmWs1, rmAL, rmDot, rmWs0,
  rmOpt (rmCat [rmAL, rmDot, rmWs0]), rmComma, rmWs0,
  rmLitCI (strL "et"), rmWs1, rmLitCI (strL "al"), rmDot, rmWs0, rmLP, rmD4, rmRP]

/-- APA year pattern (no flags): `\(\d{4}\)`. -/
def apaYearPat : RM := rmCat [rmLP, rmD4, rmRP]

/-- APA author pattern (no flags): `^[A-Z][a-z]+,\s+[A-Z]\.`. -/
def apaAuthorPat : RM := rmCat [rmUC, rmLC1, rmComma, rmWs1, rmUC, rmDot]

/-- MLA pattern 1 (IGNORECASE):
`^[A-Z][a-z]+,\s+[A-Z][a-z]+\.\s*"[^"]+\."\s*[A-Z][a-z]+.*?,\s*vol\.\s*\d+`. -/
def mlaP1 : RM := rmCat [rmAL, rmAL1, rmComma, rmWs1, rmAL, rmAL1, rmDot, rmWs0,
  rmQuote, rmNotQuote1, rmDot, rmQuote, rmWs0, rmAL, rmAL1, rmDotLazyStar,
  rmComma, rmWs0, rmLitCI (strL "vol"), rmDot, rmWs0, rmD1]

/-- MLA pattern 2 (IGNORECASE):
`^[A-Z][a-z]+,\s+[A-Z][a-z]+\.\s*[A-Z][a-z]+.*?\.\s*[A-Z][a-z]+.*?,\s*\d{4}`. -/
def mlaP2 : RM := rmCat [rmAL, rmAL1, rmComma, rmWs1, rmAL, rmAL1, rmDot, rmWs0,
  rmAL, rmAL1, rmDotLazyStar, rmDot, rmWs0, rmAL, rmAL1, rmDotLazyStar,
  rmComma, rmWs0, rmD4]

/-- MLA pattern 3 (IGNORECASE):
`^[A-Z][a-z]+,\s+[A-Z][a-z]+,\s+and\s+[A-Z][a-z]+\s+[A-Z][a-z]+`. -/
def mlaP3 : RM := rmCat [rmAL, rmAL1, rmComma, rmWs1, rmAL, rmAL1, rmComma, rmWs1,
  rmLitCI (strL "and"), rmWs1, rmAL, rmAL1, rmWs1, rmAL, rmAL1]

/-- Year pattern of MLA and IEEE (no flags): `,\s*\d{4}(?:\.|,)`. -/
def commaYearPat : RM := rmCat [rmComma, rmWs0, rmD4, rmAlt [rmDot, rmComma]]

/-- MLA author pattern (no flags): `^[A-Z][a-z]+,\s+[A-Z][a-z]+`. -/
def mlaAuthorPat : RM := rmCat [rmUC, rmLC1, rmComma, rmWs1, rmUC, rmLC1]

/-- Chicago pattern 1 (IGNORECASE):
`^[A-Z][a-z]+,\s+[A-Z][a-z]+\.\s*"[^"]+\."\s*[A-Z][a-z]+.*?\s+\d+,\s*no\.\s*\d+\s*\(\d{4}\):`. -/
def chicagoP1 : RM := rmCat [rmAL, rmAL1, rmComma, rmWs1, rmAL, rmAL1, rmDot, rmWs0,
  rmQuote, rmNotQuote1, rmDot, rmQuote, rmWs0, rmAL, rmAL1, rmDotLazyStar,
  rmWs1, rmD1, rmComma, rmWs0, rmLitCI (strL "no"), rmDot, rmWs0, rmD1, rmWs0,
  rmLP, rmD4, rmRP, rmLit (strL ":")]

/-- Chicago pattern 2 (IGNORECASE):
`^[A-Z][a-z]+,\s+[A-Z][a-z]+\.\s*[A-Z][a-z]+.*?\.\s*[A-Z][a-z]+:\s*[A-Z][a-z]+,\s*\d{4}`. -/
def chicagoP2 : RM := rmCat [rmAL, rmAL1, rmComma, rmWs1, rmAL, rmAL1, rmDot, rmWs0,
  rmAL, rmAL1, rmDotLazyStar, rmDot, rmWs0, rmAL, rmAL1, rmLit (strL ":"), rmWs0,
  rmAL, rmAL1, rmComma, rmWs0, rmD4]

/-- Chicago pattern 3 (IGNORECASE):
`^\d+\.\s*[A-Z][a-z]+,\s*[A-Z][a-z]+.*?\s*\([A-Z][a-z]+:\s*[A-Z][a-z]+,\s*\d{4}\)`. -/
def chicagoP3 : RM := rmCat [rmD1, rmDot, rmWs0, rmAL, rmAL1, rmComma, rmWs0,
  rmAL, rmAL1, rmDotLazyStar, rmWs0, rmLP, rmAL, rmAL1, rmLit (strL ":"), rmWs0,
  rmAL, rmAL1, rmComma, rmWs0, rmD4, rmRP]

/-- Chicago year pattern (no flags): `\(\d{4}\)|\,\s*\d{4}(?:\.|,)`. -/
def chicagoYearPat : RM :=
  rmAlt [rmCat [rmLP, rmD4, rmRP], rmCat [rmComma, rmWs0, rmD4, rmAlt [rmDot, rmComma]]]

/-- Chicago author pattern (no flags): `^(?:\d+\.\s*)?[A-Z][a-z]+,\s+[A-Z][a-z]+`. -/
def chicagoAuthorPat : RM := rmCat [rmOpt (rmCat [rmD1, rmDot, rmWs0]),
  rmUC, rmLC1, rmComma, rmWs1, rmUC, rmLC1]

/-- IEEE pattern 1 (IGNORECASE):
`^\[\d+\]\s*[A-Z]\.\s*[A-Z][a-z]+(?:\s+and\s+[A-Z]\.\s*[A-Z][a-z]+)*,\s*"[^"]+,"`. -/
def ieeeP1 : RM := rmCat [rmBracketNum, rmAL, rmDot, rmWs0, rmAL, rmAL1,
  rmStar (rmCat [rmWs1, rmLitCI (strL "and"), rmWs1, rmAL, rmDot, rmWs0, rmAL, rmAL1]),
  rmComma, rmWs0, rmQuote, rmNotQuote1, rmComma, rmQuote]

/-- IEEE pattern 2 (IGNORECASE):
`^\[\d+\]\s*[A-Z]\.\s*[A-Z][a-z]+,\s*[A-Z][a-z]+.*?\.\s*[A-Z][a-z]+:\s*[A-Z][a-z]+,\s*\d{4}`. -/
def ieeeP2 : RM := rmCat [rmBracketNum, rmAL, rmDot, rmWs0, rmAL, rmAL1, rmComma, rmWs0,
  rmAL, rmAL1, rmDotLazyStar, rmDot, rmWs0, rmAL, rmAL1, rmLit (strL ":"), rmWs0,
  rmAL, rmAL1, rmComma, rmWs0, rmD4]

/-- IEEE pattern 3 (IGNORECASE):
`^\[\d+\]\s*[A-Z]\.\s*[A-Z][a-z]+.*?,\s*"[^"]+,"\s*in\s+Proc\.`. -/
def ieeeP3 : RM := rmCat [rmBracketNum, rmAL, rmDot, rmWs0, rmAL, rmAL1, rmDotLazyStar,
  rmComma, rmWs0, rmQuote, rmNotQuote1, rmComma, rmQuote, rmWs0,
  rmLitCI (strL "in"), rmWs1, rmLitCI (strL "proc"), rmDot]

/-- IEEE author pattern (no flags): `^\[\d+\]\s*[A-Z]\.\s*[A-Z][a-z]+`. -/
def ieeeAuthorPat : RM := rmCat [rmBracketNum, rmUC, rmDot, rmWs0, rmUC, rmLC1]

/-- ACM pattern 1 (IGNORECASE):
`^\[\d+\]\s*[A-Z][a-z]+\s+(?:[A-Z]\.\s+)?[A-Z][a-z]+(?:\s+and\s+[A-Z][a-z]+\s+(?:[A-Z]\.\s+)?[A-Z][a-z]+)*\.\s+\d{4}\.`. -/
def acmP1 : RM := rmCat [rmBracketNum, rmAL, rmAL1, rmWs1,
  rmOpt (rmCat [rmAL, rmDot, rmWs1]), rmAL, rmAL1,
  rmStar (rmCat [rmWs1, rmLitCI (strL "and"), rmWs1, rmAL, rmAL1, rmWs1,
    rmOpt (rmCat [rmAL, rmDot, rmWs1]), rmAL, rmAL1]),
  rmDot, rmWs1, rmD4, rmDot]

/-- ACM pattern 2 (IGNORECASE):
`^(?:\[\d+\]\s*)?[A-Z][a-z]+\s+[A-Z][a-z]+(?:\s+and\s+[A-Z][a-z]+\s+[A-Z][a-z]+)*\.\s+\d{4}\.`. -/
def acmP2 : RM := rmCat [rmOpt rmBracketNum, rmAL, rmAL1, rmWs1, rmAL, rmAL1,
  rmStar (rmCat [rmWs1, rmLitCI (strL "and"), rmWs1, rmAL, rmAL1, rmWs1, rmAL, rmAL1]),
  rmDot, rmWs1, rmD4, rmDot]

/-- ACM pattern 3 (IGNORECASE):
`^(?:\[\d+\]\s*)?[A-Z][a-z]+\s+[A-Z][a-z]+,?\s+et\s+al\.\s+\d{4}\.`. -/
def acmP3 : RM := rmCat [rmOpt rmBracketNum, rmAL, rmAL1, rmWs1, rmAL, rmAL1,
  rmOpt rmComma, rmWs1, rmLitCI (strL "et"), rmWs1, rmLitCI (strL "al"), rmDot,
  rmWs1, rmD4, rmDot]

/-- ACM pattern 4 (IGNORECASE, unanchored):
`[A-Z][a-z]+\.?\s+[A-Z]+\s+\d+,\s*\d+\s*\([A-Z][a-z]+\.?\s+\d{4}\),\s*\d+[-–]\d+`. -/
def acmP4 : RM := rmCat [rmAL, rmAL1, rmOpt rmDot, rmWs1, rmAL1, rmWs1, rmD1,
  rmComma, rmWs0, rmD1, rmWs0, rmLP, rmAL, rmAL1, rmOpt rmDot, rmWs1, rmD4, rmRP,
  rmComma, rmWs0, rmD1, rmDash, rmD1]

/-- ACM pattern 5 (IGNORECASE, unanchored):
`In\s+Proceedings\s+of\s+(?:the\s+)?\d*(?:st|nd|rd|th)?\.?\s*[A-Z]`. -/
def acmP5 : RM := rmCat [rmLitCI (strL "in"), rmWs1, rmLitCI (strL "proceedings"),
  rmWs1, rmLitCI (strL "of"), rmWs1, rmOpt (rmCat [rmLitCI (strL "the"), rmWs1]),
  rmStarCh isDigitCh,
  rmOpt (rmAlt [rmLitCI (strL "st"), rmLitCI (strL "nd"), rmLitCI (strL "rd"),
    rmLitCI (strL "th")]),
  rmOpt rmDot, rmWs0, rmAL]

/-- ACM pattern 6 (IGNORECASE, unanchored):
`Article\s+\d+\s*\([A-Z][a-z]+\s+\d{4}\),\s*\d+\s+pages?`. -/
def acmP6 : RM := rmCat [rmLitCI (strL "article"), rmWs1, rmD1, rmWs0, rmLP,
  rmAL, rmAL1, rmWs1, rmD4, rmRP, rmComma, rmWs0, rmD1, rmWs1,
  rmLitCI (strL "page"), rmOpt (rmLitCI (strL "s"))]

/-- ACM year pattern (no flags): `\b\d{4}\b(?:\.|,|\s|$)`, as a bespoke
scanner tracking the previous character for the leading word boundary.
After the four digits, every alternative of `(?:\.|,|\s|$)` implies the
second `\b`. -/
def acmYearAt (s : Str) : Bool :=
  (s.take 4).length = 4 && (s.take 4).all isDigitCh &&
    (match s.drop 4 with
     | [] => true
     | c :: _ => c == '.' || c == ',' || pyIsSpace c)

/-- Search loop for `acmYearAt` with the word-boundary context. -/
def acmYearGo : Option Char → Str → Bool
  | _, [] => false
  | pc, c :: t =>
    ((match pc with | none => true | some x => !isWordCh x) && acmYearAt (c :: t))
      || acmYearGo (some c) t

/-- ACM year pattern searched over the whole reference. -/
def acmYearSearch (s : Str) : Bool := acmYearGo none s

/-- ACM author pattern (no flags):
`^(?:\[\d+\]\s*)?[A-Z][a-z]+\s+(?:[A-Z]\.\s+)?[A-Z][a-z]+`. -/
def acmAuthorPat : RM := rmCat [rmOpt rmBracketNum, rmUC, rmLC1, rmWs1,
  rmOpt (rmCat [rmUC, rmDot, rmWs1]), rmUC, rmLC1]

/-- Embedding of the `CitationStyle` dataclass.  `patterns`, `yearPattern`
and `authorPattern` hold the compiled forms of the regex fields, already
wrapped with the match/search mode the scorer applies to them. -/
structure CitationStyle where
  name : Str
  patterns : List (Str → Bool)
  yearPattern : Str → Bool
  authorPattern : Str → Bool
  titleIndicators : List Str
  commonPunctuation : List (Str × Str)

/-- The `'APA'` entry of `CITATION_STYLES`. -/
def apaStyle : CitationStyle :=
  { name := strL "APA"
  , patterns := [rmMatches apaP1, rmMatches apaP2, rmMatches apaP3]
  , yearPattern := rmSearch apaYearPat
  , authorPattern := rmMatches apaAuthorPat
  , titleIndicators := [strL "Italics after year", strL "Sentence case"]
  , commonPunctuation := [(strL "after_year", strL "."), (strL "after_title", strL "."),
      (strL "before_pages", strL ",")] }

/-- The `'MLA'` entry of `CITATION_STYLES`. -/
def mlaStyle : CitationStyle :=
  { name := strL "MLA"
  , patterns := [rmMatches mlaP1, rmMatches mlaP2, rmMatches mlaP3]
  , yearPattern := rmSearch commaYearPat
  , authorPattern := rmMatches mlaAuthorPat
  , titleIndicators := [strL "Quotes for articles", strL "Italics for books"]
  , commonPunctuation := [(strL "after_author", strL "."), (strL "after_title", strL "."),
      (strL "before_year", strL ",")] }

/-- The `'Chicago'` entry of `CITATION_STYLES`. -/
def chicagoStyle : CitationStyle :=
  { name := strL "Chicago"
  , patterns := [rmMatches chicagoP1, rmMatches chicagoP2, rmMatches chicagoP3]
  , yearPattern := rmSearch chicagoYearPat
  , authorPattern := rmMatches chicagoAuthorPat
  , titleIndicators := [strL "Quotes for articles", strL "Italics for books",
      strL "Footnote numbers"]
  , commonPunctuation := [(strL "after_author", strL "."), (strL "after_title", strL "."),
      (strL "publisher_separator", strL ":")] }

/-- The `'IEEE'` entry of `CITATION_STYLES`. -/
def ieeeStyle : CitationStyle :=
  { name := strL "IEEE"
  , patterns := [rmMatches ieeeP1, rmMatches ieeeP2, rmMatches ieeeP3]
  , yearPattern := rmSearch commaYearPat
  , authorPattern := rmMatches ieeeAuthorPat
  , titleIndicators := [strL "Quotes for all titles", strL "Numbered references",
      strL "Abbreviated first names"]
  , commonPunctuation := [(strL "after_number", strL " "), (strL "after_authors", strL ","),
      (strL "title_quotes", strL "\"")] }

/-- The `'ACM'` entry of `CITATION_STYLES`. -/
def acmStyle : CitationStyle :=
  { name := strL "ACM"
  , patterns := [rmMatches acmP1, rmMatches acmP2, rmMatches acmP3,
      rmSearch acmP4, rmSearch acmP5, rmSearch acmP6]
  , yearPattern := acmYearSearch
  , authorPattern := rmMatches acmAuthorPat
  , titleIndicators := [strL "Full names preferred", strL "Year follows authors with period",
      strL "Square brackets for numbers", strL "DOI/URL at end",
      strL "Month in parentheses for journals"]
  , commonPunctuation := [(strL "after_year", strL "."), (strL "between_authors", strL " and "),
      (strL "after_title", strL "."), (strL "ref_brackets", strL "[]"),
      (strL "page_separator", strL ", ")] }

/-- The registry in dictionary iteration order (Python dicts preserve
insertion order). -/
def citationStyleList : List CitationStyle :=
  [apaStyle, mlaStyle, chicagoStyle, ieeeStyle, acmStyle]

/-! ## Style classification

Embedding of `detect_citation_style` (citation_analyzer.py lines 616-652;
identical modulo comments in enhanced-pdf-extractor.py lines 157-199).
Python float arithmetic on the small scores is modelled exactly with
rationals. -/

/-- The raw score of one style: 1 point if any of its `patterns` matches
(the loop breaks after the first hit, so at most one point), 1 point for
the year pattern, 1 point for the author pattern, plus the fraction of
`common_punctuation` values occurring in the reference. -/
def styleScore (reference : Str) (st : CitationStyle) : ℚ :=
  (if st.patterns.any (fun p => p reference) then 1 else 0)
  + (if st.yearPattern reference then 1 else 0)
  + (if st.authorPattern reference then 1 else 0)
  + (st.commonPunctuation.countP (fun kv => occursIn kv.2 reference) : ℚ)
      / (st.commonPunctuation.length : ℚ)

/-- The scorer's `max_score = len(style.patterns) + 3`. -/
def styleMaxScore (st : CitationStyle) : ℚ := (st.patterns.length : ℚ) + 3

/-- The normalized confidence `score / max_score` of one style. -/
def styleConfidence (reference : Str) (st : CitationStyle) : ℚ :=
  styleScore reference st / styleMaxScore st

/-- Embedding of `detect_citation_style(reference)`: strip, take the
best-scoring style (strict improvement only, so the earliest style wins
ties), report `('Unknown', 0.0)` when the winner scores below 0.3. -/
def detectCitationStyle (reference : Str) : Str × ℚ :=
  let r := pyStrip reference
  let best := citationStyleList.foldl (fun b st =>
    let confidence := styleConfidence r st
    if b.2 < confidence then (st.name, confidence) else b) (strL "Unknown", 0)
  if best.2 < 3 / 10 then (strL "Unknown", 0) else best

/-- Confidence banding used by `format_style_confidence`
(citation_analyzer.py lines 1015-1029; identical in
enhanced-pdf-extractor.py lines 449-464): the text appended to the badge
for a non-Unknown style. -/
def confidenceText (confidence : ℚ) : Str :=
  if confidence ≥ 8 / 10 then strL "High confidence"
  else if confidence ≥ 5 / 10 then strL "Medium confidence"
  else strL "Low confidence"

/-! ## Reference segmentation

Embedding of `extract_references_multiline` (citation_analyzer.py lines
431-610): a two-phase function, the line-accumulating state machine
(`segmentLoop`, code lines 533-568) followed by the post-filter
(`filterReferences`, code lines 570-610). -/

/-- Segmenter start pattern 1 (no flags): `^\s*\[\d+\]`. -/
def refStartP1 : RM := rmCat [rmWs0, rmLit (strL "["), rmD1, rmLit (strL "]")]

/-- Segmenter start pattern 2 (no flags): `^\s*\d+\.`. -/
def refStartP2 : RM := rmCat [rmWs0, rmD1, rmDot]

/-- Segmenter start pattern 3 (no flags): `^\s*\d+\s+[A-Z]`. -/
def refStartP3 : RM := rmCat [rmWs0, rmD1, rmWs1, rmUC]

/-- Segmenter start pattern 4 (no flags):
`^\s*[A-Z][a-z]+,\s+[A-Z]\.?\s*(?:[A-Z]\.?\s*)?(?:,?\s*(?:and|&)\s+[A-Z][a-z]+,\s+[A-Z]\.?\s*(?:[A-Z]\.?\s*)?)*(?:,?\s*et\s+al\.)?`. -/
def refStartP4 : RM := rmCat [rmWs0, rmUC, rmLC1, rmComma, rmWs1, rmUC, rmOpt rmDot, rmWs0,
  rmOpt (rmCat [rmUC, rmOpt rmDot, rmWs0]),
  rmStar (rmCat [rmOpt rmComma, rmWs0, rmAlt [rmLit (strL "and"), rmLit (strL "&")],
    rmWs1, rmUC, rmLC1, rmComma, rmWs1, rmUC, rmOpt rmDot, rmWs0,
    rmOpt (rmCat [rmUC, rmOpt rmDot, rmWs0])]),
  rmOpt (rmCat [rmOpt rmComma, rmWs0, rmLit (strL "et"), rmWs1, rmLit (strL "al"), rmDot])]

/-- Segmenter start pattern 5 (no flags):
`^\s*[A-Z][a-z]+(?:\s+[A-Z][a-z]+)?\s+et\s+al\.`. -/
def refStartP5 : RM := rmCat [rmWs0, rmUC, rmLC1, rmOpt (rmCat [rmWs1, rmUC, rmLC1]),
  rmWs1, rmLit (strL "et"), rmWs1, rmLit (strL "al"), rmDot]

/-- Segmenter start pattern 6 (no flags):
`^\s*[A-Z][a-z]+(?:\s+[A-Z][a-z]+)*\s+\(\d{4}\)`. -/
def refStartP6 : RM := rmCat [rmWs0, rmUC, rmLC1, rmStar (rmCat [rmWs1, rmUC, rmLC1]),
  rmWs1, rmLP, rmD4, rmRP]

/-- The `ref_start_patterns` list, each applied with `re.match`. -/
def refStartPatterns : List (Str → Bool) :=
  [rmMatches refStartP1, rmMatches refStartP2, rmMatches refStartP3,
   rmMatches refStartP4, rmMatches refStartP5, rmMatches refStartP6]

/-- Embedding of `is_reference_start(line_text)`. -/
def isReferenceStart (lineText : Str) : Bool :=
  let t := pyStrip lineText
  if t.isEmpty then false
  else refStartPatterns.any (fun p => p t)

/-- Character class `[a-zA-Z\s]` of the segmenter author patterns. -/
def isLetterOrSpaceCh (c : Char) : Bool := isLetterCh c || pyIsSpace c

/-- Continuation indicators of `is_continuation_line`, in order:
`^\s*[a-z]` (no flags);
`^\s*(?:In|Proceedings|Journal|IEEE|ACM|Springer|Elsevier)` (IGNORECASE);
`^\s*(?:vol\.|volume|pp?\.|pages?|doi:|https?://)` (IGNORECASE);
`^\s*[,.]` (no flags);
`^\s*(?:https?://|doi:|www\.)` (IGNORECASE);
`^\s*(?:regelzaken|nederland|Annaouderenzorg)` (IGNORECASE);
each applied with `re.match`. -/
def continuationIndicators : List (Str → Bool) :=
  [ rmMatches (rmCat [rmWs0, rmOne isLowerCh])
  , rmMatches (rmCat [rmWs0, rmAlt [rmLitCI (strL "in"), rmLitCI (strL "proceedings"),
      rmLitCI (strL "journal"), rmLitCI (strL "ieee"), rmLitCI (strL "acm"),
      rmLitCI (strL "springer"), rmLitCI (strL "elsevier")]])
  , rmMatches (rmCat [rmWs0, rmAlt [rmCat [rmLitCI (strL "vol"), rmDot],
      rmLitCI (strL "volume"),
      rmCat [rmLitCI (strL "p"), rmOpt (rmLitCI (strL "p")), rmDot],
      rmCat [rmLitCI (strL "page"), rmOpt (rmLitCI (strL "s"))],
      rmLitCI (strL "doi:"),
      rmCat [rmLitCI (strL "http"), rmOpt (rmLitCI (strL "s")), rmLit (strL "://")]]])
  , rmMatches (rmCat [rmWs0, rmOne (fun c => c == ',' || c == '.')])
  , rmMatches (rmCat [rmWs0, rmAlt [rmCat [rmLitCI (strL "http"), rmOpt (rmLitCI (strL "s")),
      rmLit (strL "://")], rmLitCI (strL "doi:"), rmLitCI (strL "www.")]])
  , rmMatches (rmCat [rmWs0, rmAlt [rmLitCI (strL "regelzaken"), rmLitCI (strL "nederland"),
      rmLitCI (strL "annaouderenzorg")]]) ]

/-- Embedding of `is_continuation_line(line_text)`. -/
def isContinuationLine (lineText : Str) : Bool :=
  let t := pyStrip lineText
  if t.isEmpty then false
  else continuationIndicators.any (fun p => p t)

/-- Author heuristics of `looks_like_new_reference`, in order (all
IGNORECASE, all applied with `re.match`):
`^[A-Z][a-zA-Z\s]+\.?\s*\([12]\d{3}`;
`^[A-Z][a-zA-Z\s]+:\s*`;
`^[A-Z][a-zA-Z\s]{10,}\.?\s*\(`. -/
def segmenterAuthorPatterns : List (Str → Bool) :=
  [ rmMatches (rmCat [rmAL, rmPlusCh isLetterOrSpaceCh, rmOpt rmDot, rmWs0, rmLP,
      rmOne (fun c => c == '1' || c == '2'), rmRep 3 (rmOne isDigitCh)])
  , rmMatches (rmCat [rmAL, rmPlusCh isLetterOrSpaceCh, rmLit (strL ":"), rmWs0])
  , rmMatches (rmCat [rmAL, rmRep 10 (rmOne isLetterOrSpaceCh), rmStarCh isLetterOrSpaceCh,
      rmOpt rmDot, rmWs0, rmLP]) ]

/-- Embedding of `looks_like_new_reference(line_text, previous_line)`;
`previous_line` is `None` before the first line and the raw previous line
afterwards (its Python truthiness test also fails on the empty string). -/
def looksLikeNewReference (lineText : Str) (previousLine : Option Str) : Bool :=
  let t := pyStrip lineText
  if t.isEmpty then false
  else if isReferenceStart t then true
  else if segmenterAuthorPatterns.any (fun p => p t) then true
  else
    match previousLine with
    | some pl =>
      if !pl.isEmpty && (endsWithCh (pyStrip pl) '/' || endsWithCh (pyStrip pl) '.') then
        match t with
        | c :: _ => isUpperCh c && decide (t.length > 10)
        | [] => false
      else false
    | none => false

/-- The state machine of `extract_references_multiline` (code lines
533-568): walk the lines with the accumulator `cur` (the Python
`current_ref`), flushing it as `' '.join(current_ref).strip()` on blank
lines, on new-reference starts and at end of input. -/
def segmentLoop : List Str → Option Str → List Str → List Str → List Str
  | [], _, cur, acc =>
    if cur.isEmpty then acc else acc ++ [pyStrip (joinWith (strL " ") cur)]
  | line :: rest, prev, cur, acc =>
    let ls := pyStrip line
    let flushed := if cur.isEmpty then acc else acc ++ [pyStrip (joinWith (strL " ") cur)]
    if ls.isEmpty then
      segmentLoop rest (some line) [] flushed
    else if looksLikeNewReference ls prev || isReferenceStart ls then
      segmentLoop rest (some line) [ls] flushed
    else if !cur.isEmpty && (isContinuationLine ls || !looksLikeNewReference ls prev) then
      segmentLoop rest (some line) (cur ++ [ls]) acc
    else
      segmentLoop rest (some line) [ls] flushed

/-- The pre-filter segment list produced by the state machine. -/
def rawReferenceSegments (text : Str) : List Str :=
  segmentLoop (splitOnCh '\n' text) none [] []

/-- The `skip_patterns` list of the post-filter. -/
def skipPatterns : List Str :=
  [strL "no references available", strL "no citations found",
   strL "references not available", strL "none available", strL "not applicable",
   strL "n/a", strL "tbd", strL "to be determined", strL "coming soon",
   strL "under construction"]

/-- The `ref_indicators` regexes of the post-filter, each searched with
`re.IGNORECASE`, in order: `\d{4}`; `[A-Z][a-z]+,`; `\..*\.`; `http`;
`doi`; `vol\.?|volume`; `pp?\.?`; `journal|proceedings|conference`. -/
def refIndicators : List (Str → Bool) :=
  [ rmSearch rmD4
  , rmSearch (rmCat [rmAL, rmAL1, rmComma])
  , rmSearch (rmCat [rmDot, rmStarCh (fun c => c != '\n'), rmDot])
  , rmSearch (rmLitCI (strL "http"))
  , rmSearch (rmLitCI (strL "doi"))
  , rmSearch (rmAlt [rmCat [rmLitCI (strL "vol"), rmOpt rmDot], rmLitCI (strL "volume")])
  , rmSearch (rmCat [rmLitCI (strL "p"), rmOpt (rmLitCI (strL "p")), rmOpt rmDot])
  , rmSearch (rmAlt [rmLitCI (strL "journal"), rmLitCI (strL "proceedings"),
      rmLitCI (strL "conference")]) ]

/-- The post-filter of `extract_references_multiline` (code lines
570-610): drop segments matching a skip phrase, of length at most 20,
without a space or comma, or without at least one reference indicator. -/
def filterReferences (refs : List Str) : List Str :=
  refs.filter (fun ref =>
    let refLower := pyStrip (toLowerStr ref)
    let isNonReference := skipPatterns.any (fun p => occursIn p refLower)
    !isNonReference && decide (ref.length > 20)
      && (occursIn (strL " ") ref || occursIn (strL ",") ref)
      && refIndicators.any (fun p => p ref))

/-- Embedding of `extract_references_multiline(text)`. -/
def extractReferencesMultiline (text : Str) : List Str :=
  filterReferences (rawReferenceSegments text)

/-! ## Component extraction

Embedding of `extract_reference_components` (citation_analyzer.py lines
654-795, identical in enhanced-pdf-extractor.py lines 204-341): the
`components` dictionary becomes a record of fields, every field empty
unless an extraction pattern fills it. -/

/-- The `components` dictionary: all fields default to the empty string. -/
structure RefComponents where
  authors : Str := []
  year : Str := []
  title : Str := []
  source : Str := []
  volume : Str := []
  issue : Str := []
  pages : Str := []
  doi : Str := []
  url : Str := []
  publisher : Str := []
  location : Str := []
deriving DecidableEq

/-- DOI extraction (IGNORECASE):
`(?:doi:?\s*|https?://doi\.org/)(10\.\d{4,}/[^\s,]+)`, `group(1)`. -/
def componentDoi (reference : Str) : Option Str :=
  rmSearchGroupMid
    (rmAlt [rmCat [rmLitCI (strL "doi"), rmOpt (rmLit (strL ":")), rmWs0],
      rmCat [rmLitCI (strL "http"), rmOpt (rmLitCI (strL "s")), rmLit (strL "://"),
        rmLitCI (strL "doi.org/")]])
    (rmCat [rmLit (strL "10."), rmRep 4 (rmOne isDigitCh), rmStarCh isDigitCh,
      rmLit (strL "/"), rmPlusCh (fun c => !pyIsSpace c && c != ',')])
    rmEps reference

/-- URL extraction (no flags): `https?://[^\s<>"\']+`, `group(0)`. -/
def componentUrl (reference : Str) : Option Str :=
  rmSearchGroupMid rmEps
    (rmCat [rmLit (strL "http"), rmOpt (rmLit (strL "s")), rmLit (strL "://"),
      rmPlusCh (fun c => !pyIsSpace c && c != '<' && c != '>' && c != '"' && c != '\'')])
    rmEps reference

/-- ACM branch author/year match (anchored search):
`^(?:\[\d+\]\s*)?([^.]+\.)?\s*(\d{4})\.`; returns `group(1)`, `group(2)`
and the remainder of the input after the match (`reference[match.end():]`),
enumerating the optional groups in backtracking preference order. -/
def acmAuthorYearMatch (reference : Str) : Option (Option Str × Str × Str) :=
  (rmOpt rmBracketNum reference).findSome? (fun r1 =>
    let g1branches : List (Option Str × Str) :=
      ((rmCat [rmPlusCh (fun c => c != '.'), rmDot] r1).map
        (fun r2 => (some (r1.take (r1.length - r2.length)), r2))) ++ [(none, r1)]
    g1branches.findSome? (fun br =>
      (rmWs0 br.2).findSome? (fun r3 =>
        match (rmCat [rmD4, rmDot] r3).head? with
        | some r4 => some (br.1, r3.take 4, r4)
        | none => none)))

/-- ACM branch title patterns (no flags), first match wins:
`([^.]+)\.\s*(?:In\s+Proceedings|In\s+ACM|Commun\.|J\.|Trans\.)`;
`([^.]+)\.\s*\(`;
`([^.]+)\.\s*[A-Z][a-z]+(?:,\s*[A-Z][a-z]+)*(?:\.|,)`;
`([^.]+)\.`. -/
def acmTitleFromRest (rest : Str) : Option Str :=
  let grp := rmPlusCh (fun c => c != '.')
  match rmSearchGroupMid rmEps grp
      (rmCat [rmDot, rmWs0, rmAlt [rmCat [rmLit (strL "In"), rmWs1, rmLit (strL "Proceedings")],
        rmCat [rmLit (strL "In"), rmWs1, rmLit (strL "ACM")], rmLit (strL "Commun."),
        rmLit (strL "J."), rmLit (strL "Trans.")]]) rest with
  | some t => some t
  | none =>
    match rmSearchGroupMid rmEps grp (rmCat [rmDot, rmWs0, rmLP]) rest with
    | some t => some t
    | none =>
      match rmSearchGroupMid rmEps grp
          (rmCat [rmDot, rmWs0, rmUC, rmLC1,
            rmStar (rmCat [rmComma, rmWs0, rmUC, rmLC1]), rmAlt [rmDot, rmComma]]) rest with
      | some t => some t
      | none => rmSearchGroupMid rmEps grp rmDot rest

/-- ACM branch journal pattern (no flags):
`([A-Z][^,]+)\s+(\d+),\s*(\d+)\s*\(([^)]+)\),\s*([\d\-–]+)`; returns
groups 1, 2, 3 and 5 of the leftmost match, enumerating every greedy
alternative in preference order. -/
def acmJournalAt (s : Str) : Option (Str × Str × Str × Str) :=
  (rmCat [rmUC, rmPlusCh (fun c => c != ',')] s).findSome? (fun r1 =>
    let g1 := s.take (s.length - r1.length)
    (rmWs1 r1).findSome? (fun r2 =>
      (rmD1 r2).findSome? (fun r3 =>
        let g2 := r2.take (r2.length - r3.length)
        (rmCat [rmComma, rmWs0] r3).findSome? (fun r4 =>
          (rmD1 r4).findSome? (fun r5 =>
            let g3 := r4.take (r4.length - r5.length)
            (rmCat [rmWs0, rmLP] r5).findSome? (fun r6 =>
              (rmCat [rmPlusCh (fun c => c != ')'), rmRP, rmComma, rmWs0] r6).findSome?
                (fun r7 =>
                  (rmPlusCh (fun c => isDigitCh c || c == '-' || c == '–') r7).findSome?
                    (fun r8 =>
                      let g5 := r7.take (r7.length - r8.length)
                      some (g1, g2, g3, g5)))))))))

/-- Leftmost search of the ACM journal pattern. -/
def acmJournalMatch (reference : Str) : Option (Str × Str × Str × Str) :=
  scanFirst acmJournalAt reference

/-- ACM branch publisher pattern (no flags):
`([A-Z][^,]+),\s+([A-Z][^,.]+(?:,\s*[A-Z]{2})?)(?:\.|$)`; returns the
match start index together with groups 1 and 2 (the start index feeds the
`'In Proceedings' not in reference[:match.start()]` guard). -/
def acmPublisherGo : Nat → Str → Option (Nat × Str × Str)
  | _, [] => none
  | idx, c :: t =>
    let s := c :: t
    let here :=
      (rmCat [rmUC, rmPlusCh (fun c => c != ',')] s).findSome? (fun r1 =>
        let g1 := s.take (s.length - r1.length)
        (rmCat [rmComma, rmWs1] r1).findSome? (fun r2 =>
          (rmCat [rmUC, rmPlusCh (fun c => c != ',' && c != '.'),
            rmOpt (rmCat [rmComma, rmWs0, rmRep 2 rmUC])] r2).findSome? (fun r3 =>
              let g2 := r2.take (r2.length - r3.length)
              if ((rmAlt [rmDot, rmEnd] r3)).isEmpty then none
              else some (idx, g1, g2))))
    match here with
    | some x => some x
    | none => acmPublisherGo (idx + 1) t

/-- Leftmost search of the ACM publisher pattern. -/
def acmPublisherMatch (reference : Str) : Option (Nat × Str × Str) :=
  acmPublisherGo 0 reference

/-- ACM proceedings source pattern:
`In Proceedings of ([^(]+)\s*\(([^)]+)\)`, `group(1)`. -/
def acmProcSource (reference : Str) : Option Str :=
  rmSearchGroupMid (rmLit (strL "In Proceedings of "))
    (rmPlusCh (fun c => c != '('))
    (rmCat [rmWs0, rmLP, rmPlusCh (fun c => c != ')'), rmRP]) reference

/-- Volume fallback (IGNORECASE): `(?:vol\.|volume)\s*(\d+)`, `group(1)`. -/
def volumeFallback (reference : Str) : Option Str :=
  rmSearchGroupMid
    (rmCat [rmAlt [rmCat [rmLitCI (strL "vol"), rmDot], rmLitCI (strL "volume")], rmWs0])
    rmD1 rmEps reference

/-- Issue fallback (IGNORECASE): `(?:no\.|issue)\s*(\d+)|\((\d+)\)`,
`group(1) or group(2)`; at each position the left alternative is tried
first. -/
def issueFallback (reference : Str) : Option Str :=
  scanFirst (fun s =>
    match capMid
        (rmCat [rmAlt [rmCat [rmLitCI (strL "no"), rmDot], rmLitCI (strL "issue")], rmWs0])
        rmD1 rmEps s with
    | some g => some g
    | none => capMid rmLP rmD1 rmRP s) reference

/-- Pages fallback (no flags):
`(?:pp?\.|pages?)\s*(\d+[-–]\d+)|(\d+[-–]\d+)(?:\.|,|$)`,
`group(1) or group(2)`. -/
def pagesFallback (reference : Str) : Option Str :=
  let range := rmCat [rmD1, rmDash, rmD1]
  scanFirst (fun s =>
    match capMid
        (rmCat [rmAlt [rmCat [rmLit (strL "p"), rmOpt (rmLit (strL "p")), rmDot],
          rmCat [rmLit (strL "page"), rmOpt (rmLit (strL "s"))]], rmWs0])
        range rmEps s with
    | some g => some g
    | none => capMid rmEps range (rmAlt [rmDot, rmComma, rmEnd]) s) reference

/-- Embedding of `extract_reference_components(reference, style)`. -/
def extractReferenceComponents (reference : Str) (style : Str) : RefComponents :=
  let comps : RefComponents := {}
  let comps := match componentDoi reference with
    | some d => { comps with doi := d }
    | none => comps
  let comps := match componentUrl reference with
    | some u => { comps with url := u }
    | none => comps
  let comps :=
    if style = strL "APA" then
      -- authors: re.match(r'^([^(]+)\s*\(\d{4}\)'), group(1).strip()
      let comps := match rmMatchGroupMid rmEps (rmPlusCh (fun c => c != '('))
          (rmCat [rmWs0, rmLP, rmD4, rmRP]) reference with
        | some a => { comps with authors := pyStrip a }
        | none => comps
      -- year: re.search(r'\((\d{4})\)'), group(1)
      let comps := match rmSearchGroupMid rmLP rmD4 rmRP reference with
        | some y => { comps with year := y }
        | none => comps
      -- title: re.search(r'\(\d{4}\)\.\s*([^.]+)\.'), group(1).strip()
      match rmSearchGroupMid (rmCat [rmLP, rmD4, rmRP, rmDot, rmWs0])
          (rmPlusCh (fun c => c != '.')) rmDot reference with
      | some t => { comps with title := pyStrip t }
      | none => comps
    else if style = strL "IEEE" then
      -- authors: re.search(r'^\[\d+\]\s*([^,"]+),\s*"'), group(1).strip()
      let comps := match rmMatchGroupMid rmBracketNum
          (rmPlusCh (fun c => c != ',' && c != '"'))
          (rmCat [rmComma, rmWs0, rmQuote]) reference with
        | some a => { comps with authors := pyStrip a }
        | none => comps
      -- title: re.search(r'"([^"]+)"'), group(1).strip()
      let comps := match rmSearchGroupMid rmQuote rmNotQuote1 rmQuote reference with
        | some t => { comps with title := pyStrip t }
        | none => comps
      -- year: re.search(r',\s*(\d{4})(?:\.|,|$)'), group(1)
      match rmSearchGroupMid (rmCat [rmComma, rmWs0]) rmD4
          (rmAlt [rmDot, rmComma, rmEnd]) reference with
      | some y => { comps with year := y }
      | none => comps
    else if style = strL "MLA" then
      -- authors: re.match(r'^([^.]+)\.'), group(1).strip()
      let comps := match rmMatchGroupMid rmEps (rmPlusCh (fun c => c != '.')) rmDot
          reference with
        | some a => { comps with authors := pyStrip a }
        | none => comps
      -- title: re.search(r'[.]\s*"([^"]+)"') or re.search(r'[.]\s*([^.]+)\.')
      let comps := match
          (match rmSearchGroupMid (rmCat [rmDot, rmWs0, rmQuote]) rmNotQuote1 rmQuote
              reference with
           | some t => some t
           | none => rmSearchGroupMid (rmCat [rmDot, rmWs0])
               (rmPlusCh (fun c => c != '.')) rmDot reference) with
        | some t => { comps with title := pyStrip t }
        | none => comps
      -- year: re.search(r',\s*(\d{4})(?:\.|,|$)'), group(1)
      match rmSearchGroupMid (rmCat [rmComma, rmWs0]) rmD4
          (rmAlt [rmDot, rmComma, rmEnd]) reference with
      | some y => { comps with year := y }
      | none => comps
    else if style = strL "ACM" then
      let comps := match acmAuthorYearMatch reference with
        | some ay =>
          let comps := { comps with
            authors := match ay.1 with
              | some a => pyStrip (pyStripChars (strL ".") a)
              | none => []
            , year := ay.2.1 }
          match acmTitleFromRest ay.2.2 with
          | some t => { comps with title := pyStrip t }
          | none => comps
        | none => comps
      let comps :=
        if occursIn (strL "In Proceedings of") reference then
          match acmProcSource reference with
          | some src => { comps with source := pyStrip src }
          | none => comps
        else
          match acmJournalMatch reference with
          | some j =>
            { comps with
              source := pyStrip j.1
              volume := j.2.1
              issue := j.2.2.1
              pages := j.2.2.2 }
          | none => comps
      match acmPublisherMatch reference with
      | some pm =>
        if occursIn (strL "In Proceedings") (reference.take pm.1) then comps
        else { comps with publisher := pyStrip pm.2.1, location := pyStrip pm.2.2 }
      | none => comps
    else comps
  let comps := if comps.volume.isEmpty then
      match volumeFallback reference with
      | some v => { comps with volume := v }
      | none => comps
    else comps
  let comps := if comps.issue.isEmpty then
      match issueFallback reference with
      | some i => { comps with issue := i }
      | none => comps
    else comps
  if comps.pages.isEmpty then
    match pagesFallback reference with
    | some p => { comps with pages := p }
    | none => comps
  else comps

/-! ## Identifier normalization

Embedding of `extract_doi_from_url` and `clean_url` (citation_analyzer.py
lines 833-929, byte-identical in enhanced-pdf-extractor.py lines
486-594), along with the pieces of `urllib.parse` they call
(`urlparse`, `urlunparse`, `quote`, `quote_plus`, transcribed from
CPython 3.11). -/

/-- The DOI suffix class `[-._;()/:\w]`. -/
def isDoiCh (c : Char) : Bool :=
  c == '-' || c == '.' || c == '_' || c == ';' || c == '(' || c == ')' ||
  c == '/' || c == ':' || isWordCh c

/-- The DOI core `10\.\d{4,}/[-._;()/:\w]+`. -/
def doiCore : RM :=
  rmCat [rmLit (strL "10."), rmRep 4 (rmOne isDigitCh), rmStarCh isDigitCh,
    rmLit (strL "/"), rmPlusCh isDoiCh]

/-- The `doi_patterns` list of `extract_doi_from_url` (all searched with
IGNORECASE), in order:
`10\.\d{4,}/[-._;()/:\w]+`;
`doi\.org/10\.\d{4,}/[-._;()/:\w]+`;
`dx\.doi\.org/10\.\d{4,}/[-._;()/:\w]+`;
`doi/(?:abs|pdf|full|book|citation)?/?10\.\d{4,}/[-._;()/:\w]+`. -/
def doiPatterns : List RM :=
  [ doiCore
  , rmCat [rmLitCI (strL "doi.org/"), doiCore]
  , rmCat [rmLitCI (strL "dx.doi.org/"), doiCore]
  , rmCat [rmLitCI (strL "doi/"),
      rmOpt (rmAlt [rmLitCI (strL "abs"), rmLitCI (strL "pdf"), rmLitCI (strL "full"),
        rmLitCI (strL "book"), rmLitCI (strL "citation")]),
      rmOpt (rmLit (strL "/")), doiCore] ]

/-- Embedding of `extract_doi_from_url(url)`: strip all whitespace
(`re.sub(r'\s+', '', url)`), take `group(0)` of the first pattern that
matches, cut everything before the first `10.` when the match has a `/`
and a `10.`, and strip. -/
def extractDoiFromUrl (url : Str) : Option Str :=
  let url := url.filter (fun c => !pyIsSpace c)
  (doiPatterns.findSome? (fun pat => rmSearchGroupMid rmEps pat rmEps url)).map
    (fun doi =>
      let doi :=
        if occursIn (strL "/") doi && occursIn (strL "10.") doi then
          match findSub (strL "10.") doi with
          | some i => doi.drop i
          | none => doi
        else doi
      pyStrip doi)

/-- The unreserved characters `urllib.parse.quote` never encodes. -/
def alwaysSafeCh (c : Char) : Bool :=
  isLetterCh c || isDigitCh c || c == '_' || c == '.' || c == '-' || c == '~'

/-- UTF-8 bytes of one character. -/
def utf8Bytes (c : Char) : List Nat :=
  let n := c.toNat
  if n < 0x80 then [n]
  else if n < 0x800 then [0xC0 ||| (n >>> 6), 0x80 ||| (n &&& 0x3F)]
  else if n < 0x10000 then
    [0xE0 ||| (n >>> 12), 0x80 ||| ((n >>> 6) &&& 0x3F), 0x80 ||| (n &&& 0x3F)]
  else
    [0xF0 ||| (n >>> 18), 0x80 ||| ((n >>> 12) &&& 0x3F),
     0x80 ||| ((n >>> 6) &&& 0x3F), 0x80 ||| (n &&& 0x3F)]

/-- Uppercase hexadecimal digit. -/
def hexDigit (n : Nat) : Char :=
  if n < 10 then Char.ofNat ('0'.toNat + n) else Char.ofNat ('A'.toNat + n - 10)

/-- Percent-encode one byte. -/
def pctEncodeByte (b : Nat) : Str := ['%', hexDigit (b / 16), hexDigit (b % 16)]

/-- One character under `urllib.parse.quote` with the given extra safe
characters. -/
def pyQuoteChar (safe : Str) (c : Char) : Str :=
  if alwaysSafeCh c || safe.contains c then [c]
  else (utf8Bytes c).flatMap pctEncodeByte

/-- Python `urllib.parse.quote(s)` (default `safe='/'`). -/
def pyQuote (s : Str) : Str := s.flatMap (pyQuoteChar (strL "/"))

/-- Python `urllib.parse.quote_plus(s)` (default `safe=''`; spaces become
`+`). -/
def pyQuotePlus (s : Str) : Str :=
  s.flatMap (fun c => if c == ' ' then ['+'] else pyQuoteChar [] c)

/-- Scheme characters accepted by `urllib.parse.urlsplit`. -/
def isSchemeCh (c : Char) : Bool :=
  isLetterCh c || isDigitCh c || c == '+' || c == '-' || c == '.'

/-- The result of `urllib.parse.urlparse`. -/
structure UrlParseResult where
  scheme : Str
  netloc : Str
  path : Str
  params : Str
  query : Str
  fragment : Str
deriving DecidableEq

/-- Last index of a character (Python `str.rfind`), if any. -/
def rfindCh (c : Char) : Str → Option Nat
  | [] => none
  | x :: t =>
    match rfindCh c t with
    | some i => some (i + 1)
    | none => if x == c then some 0 else none

/-- First index of a character at position `start` or later
(Python `str.find(c, start)`). -/
def findChFrom (c : Char) (s : Str) (start : Nat) : Option Nat :=
  (findSub [c] (s.drop start)).map (· + start)

/-- The schemes of `urllib.parse.uses_params`. -/
def usesParams : List Str :=
  [strL "", strL "ftp", strL "hdl", strL "prospero", strL "http", strL "imap",
   strL "https", strL "shttp", strL "rtsp", strL "rtspu", strL "sip", strL "sips",
   strL "mms", strL "sftp", strL "tel"]

/-- The result of `urllib.parse.urlsplit`. -/
structure UrlSplitResult where
  scheme : Str
  netloc : Str
  path : Str
  query : Str
  fragment : Str
deriving DecidableEq

/-- Python `urllib.parse.urlsplit(url)`, transcribed from CPython 3.11:
lower-cased scheme up to a `:` when the prefix is a well-formed scheme,
netloc after `//` up to `/`, `?` or `#`, then the fragment split off at
the first `#` and the query at the first `?`. -/
def pyUrlsplit (url : Str) : UrlSplitResult :=
  let schemeRest : Str × Str :=
    match findSub (strL ":") url with
    | some i =>
      if 0 < i && (match url.head? with
          | some c0 => isLetterCh c0
          | none => false) && (url.take i).all isSchemeCh then
        (toLowerStr (url.take i), url.drop (i + 1))
      else ([], url)
    | none => ([], url)
  let scheme := schemeRest.1
  let rest := schemeRest.2
  let netlocRest : Str × Str :=
    if (strL "//").isPrefixOf rest then
      let body := rest.drop 2
      let nl := body.takeWhile (fun c => c != '/' && c != '?' && c != '#')
      (nl, body.drop nl.length)
    else ([], rest)
  let netloc := netlocRest.1
  let rest := netlocRest.2
  let restFrag : Str × Str :=
    match findSub (strL "#") rest with
    | some i => (rest.take i, rest.drop (i + 1))
    | none => (rest, [])
  let restQ : Str × Str :=
    match findSub (strL "?") restFrag.1 with
    | some i => (restFrag.1.take i, restFrag.1.drop (i + 1))
    | none => (restFrag.1, [])
  { scheme := scheme, netloc := netloc, path := restQ.1,
    query := restQ.2, fragment := restFrag.2 }

/-- CPython `_splitparams(url)`: split the params off the last path
segment. -/
def pySplitparams (url : Str) : Str × Str :=
  if occursIn (strL "/") url then
    match rfindCh '/' url with
    | some j =>
      match findChFrom ';' url j with
      | some i => (url.take i, url.drop (i + 1))
      | none => (url, [])
    | none => (url, [])
  else
    match findSub (strL ";") url with
    | some i => (url.take i, url.drop (i + 1))
    | none => (url, [])

/-- Python `urllib.parse.urlparse(url)`. -/
def pyUrlparse (url : Str) : UrlParseResult :=
  let s := pyUrlsplit url
  if usesParams.contains s.scheme && occursIn (strL ";") s.path then
    let pp := pySplitparams s.path
    { scheme := s.scheme, netloc := s.netloc, path := pp.1, params := pp.2,
      query := s.query, fragment := s.fragment }
  else
    { scheme := s.scheme, netloc := s.netloc, path := s.path, params := [],
      query := s.query, fragment := s.fragment }

/-- Python `urllib.parse.urlunparse` (via `urlunsplit`), transcribed from
CPython 3.11. -/
def pyUrlunparse (p : UrlParseResult) : Str :=
  let url := if !p.params.isEmpty then p.path ++ strL ";" ++ p.params else p.path
  let url :=
    if !p.netloc.isEmpty || (strL "//").isPrefixOf url then
      (strL "//") ++ p.netloc ++
        (if !url.isEmpty && url.head? != some '/' then strL "/" ++ url else url)
    else url
  let url := if !p.scheme.isEmpty then p.scheme ++ strL ":" ++ url else url
  let url := if !p.query.isEmpty then url ++ strL "?" ++ p.query else url
  if !p.fragment.isEmpty then url ++ strL "#" ++ p.fragment else url

/-- Embedding of `get_domain(url)` (citation_analyzer.py lines 128-133,
identical in enhanced-pdf-extractor.py lines 776-781):
`urlparse(url).netloc.lower()`; the embedding never raises, so the
`except` branch returning `None` is unreachable and the result is always
a (possibly empty) string. -/
def getDomain (url : Str) : Str := toLowerStr (pyUrlparse url).netloc

/-- The final shape check of `clean_url`:
`re.match(r'https?://.+\..+', final_url)` — a lowercase scheme prefix and
then, within the first line (`.` does not cross a newline), a dot that is
neither the first character nor the last of that line prefix;
`re.match` needs no more, since the trailing `.+` is unanchored. -/
def urlShape (s : Str) : Bool :=
  let check : Str → Bool := fun r =>
    let fl := r.takeWhile (fun c => c != '\n')
    ((fl.drop 1).dropLast).contains '.'
  if (strL "https://").isPrefixOf s then check (s.drop 8)
  else if (strL "http://").isPrefixOf s then check (s.drop 7)
  else false

/-- Characters removed inside URL parts: `re.sub(r'["\'\[\]<>{}]', '', part)`. -/
def urlNoiseCh (c : Char) : Bool :=
  c == '"' || c == '\'' || c == '[' || c == ']' || c == '<' || c == '>' ||
  c == '{' || c == '}'

/-- Strip a trailing run of the characters of `cs`
(`re.sub(r'[...]+$', '', s)` for a character class). -/
def stripTrailingRun (cs : Str) (s : Str) : Str :=
  s.take (s.length - (s.reverse.takeWhile (fun c => cs.contains c)).length)

/-- The urlparse-and-requote tail of `clean_url` (code lines 890-926):
re-encode path segments, query key/value pairs and the fragment, then
reassemble, returning `None` unless the result passes `urlShape`. -/
def cleanUrlParse (url : Str) : Option Str :=
  let parsed := pyUrlparse url
  let cleanPath := joinWith (strL "/") ((splitOnCh '/' parsed.path).filterMap (fun part =>
    let part := part.filter (fun c => !urlNoiseCh c)
    if part.isEmpty then none else some (pyQuote part)))
  let cleanQuery :=
    if !parsed.query.isEmpty then
      joinWith (strL "&") ((splitOnCh '&' parsed.query).filterMap (fun part =>
        if occursIn (strL "=") part then
          match findSub (strL "=") part with
          | some i =>
            some (pyQuotePlus (part.take i) ++ strL "=" ++ pyQuotePlus (part.drop (i + 1)))
          | none => none
        else none))
    else []
  let cleanFragment := pyQuote parsed.fragment
  let finalUrl := pyUrlunparse
    { parsed with path := cleanPath, query := cleanQuery, fragment := cleanFragment }
  if urlShape finalUrl then some finalUrl else none

/-- The scheme-fixing part of `clean_url` (code lines 882-888): strip a
trailing punctuation run, require an `http(s)://` scheme (prepending
`https://` to a `www.` URL), then hand over to the urlparse tail. -/
def cleanUrlTail (url : Str) : Option Str :=
  let url := stripTrailingRun (strL ".,;:)]\x7d") url
  if !((strL "http://").isPrefixOf (toLowerStr url)
      || (strL "https://").isPrefixOf (toLowerStr url)) then
    if (strL "www.").isPrefixOf (toLowerStr url) then
      cleanUrlParse (strL "https://" ++ url)
    else none
  else cleanUrlParse url

/-- The branch of `clean_url` on the already collapsed and
backslash-fixed URL (code lines 869-929): return the canonical registrar
form early when the string mentions a DOI and one can be extracted
(special cased to `dl.acm.org`), otherwise reassemble via `urlparse`. -/
def cleanUrlCore (url : Str) : Option Str :=
  if occursIn (strL "doi") (toLowerStr url) then
    match extractDoiFromUrl url with
    | some doi =>
      let cleanDoi := (pyStrip doi).filter (fun c => c != ' ')
      if occursIn (strL "dl.acm.org") (toLowerStr url) then
        some (strL "https://dl.acm.org/doi/" ++ cleanDoi)
      else
        some (strL "https://doi.org/" ++ cleanDoi)
    | none => cleanUrlTail url
  else cleanUrlTail url

/-- Embedding of `clean_url(url)`: collapse a whitespace-split URL after
removing bracket/quote noise from its parts, replace backslashes, then
hand over to `cleanUrlCore`. -/
def cleanUrl (url : Str) : Option Str :=
  if url.isEmpty then none
  else
    let url := pyStrip url
    let parts := pySplitWs url
    let url :=
      if parts.length > 1 then
        (parts.filterMap (fun part =>
          let part := part.filter (fun c => !urlNoiseCh c)
          let part := pyStripChars (strL ".,;:()[]{}") part
          if part.isEmpty then none else some part)).flatten
      else url
    let url := url.filter (fun c => !pyIsSpace c)
    let url := url.map (fun c => if c == '\\' then '/' else c)
    cleanUrlCore url

/-! ## Section splitting

Embedding of `split_body_and_references` (citation_analyzer.py lines
154-394): the explicit header scan (first pass), the per-page
reference-content heuristic (second pass), and the last-quarter
heuristic (third pass). -/

/-- The `ref_headers` vocabulary, in code order. -/
def refHeaders : List Str :=
  [strL "references", strL "bibliography", strL "works cited",
   strL "literature cited", strL "cited works", strL "sources",
   strL "reference list", strL "citations"]

/-- Page-boundary marker: `re.match(r'^--- Page \d+ ---$', line, re.IGNORECASE)`
applied to the stripped line. -/
def isPageDelim (s : Str) : Bool :=
  rmMatches (rmCat [rmLitCI (strL "--- page "), rmD1, rmLit (strL " ---"), rmEnd]) s

/-- Consume one character of a class. -/
def dOne (p : Char → Bool) (s : Str) : Option Str :=
  match s with
  | c :: t => if p c then some t else none
  | [] => none

/-- Compose two consumers. -/
def dSeq (f g : Str → Option Str) (s : Str) : Option Str := (f s).bind g

/-- Finish a consumption with a boolean trailer. -/
def dThen (f : Str → Option Str) (g : Str → Bool) (s : Str) : Bool :=
  match f s with
  | some r => g r
  | none => false

/-- The header alternation `({"|".join(ref_headers)})` followed by a
trailer test on the rest. -/
def headerThen (tail : Str → Bool) (s : Str) : Bool :=
  refHeaders.any (fun h => h.isPrefixOf s && tail (s.drop h.length))

/-- The trailer `(?:\s|$)`: one whitespace character or the end ( `$`
before a trailing newline is subsumed, since `\s` matches the newline). -/
def wsOrEnd (s : Str) : Bool :=
  match s with
  | [] => true
  | c :: _ => pyIsSpace c

/-- The anchor `$` as a boolean on the rest. -/
def dollarEnd (s : Str) : Bool := s = [] || s = ['\n']

/-- Quick start-check `re.match(rf'^\d+\s*{header}', line_lower)`. -/
def quickHeaderNum (h : Str) (s : Str) : Bool :=
  match dPlus isDigitCh s with
  | some r => h.isPrefixOf (dStar pyIsSpace r)
  | none => false

/-- Quick start-check `re.match(rf'^page\s*\d*\s*{header}', line_lower)`. -/
def quickHeaderPage (h : Str) (s : Str) : Bool :=
  match dLit (strL "page") s with
  | some r => h.isPrefixOf (dStar pyIsSpace (dStar isDigitCh (dStar pyIsSpace r)))
  | none => false

/-- Header pattern 1: `^(H)(?:\s|$)`. -/
def hdrP1 (s : Str) : Bool := headerThen wsOrEnd s

/-- Header pattern 2: `^page\s+\d+\s+(H)(?:\s|$)`. -/
def hdrP2 (s : Str) : Bool :=
  dThen (dSeq (dLit (strL "page")) (dSeq (dPlus pyIsSpace)
    (dSeq (dPlus isDigitCh) (dPlus pyIsSpace)))) (headerThen wsOrEnd) s

/-- The part of header patterns 3 and 4 after the optional
`(?:section\s+)?` prefix: a run of the class, `\.?\s+`, then the header
alternation with its trailer. -/
def hdrNumTail (cls : Char → Bool) (s : Str) : Bool :=
  dThen (fun s => (dPlus cls s).bind (fun r => dPlus pyIsSpace (dOptCh '.' r)))
    (headerThen wsOrEnd) s

/-- Consume `section\s+`. -/
def dSection (s : Str) : Option Str := (dLit (strL "section") s).bind (dPlus pyIsSpace)

/-- Header pattern 3: `^(?:section\s+)?\d+\.?\s+(H)(?:\s|$)`; both
branches of the optional group are tried. -/
def hdrP3 (s : Str) : Bool :=
  (match dSection s with
   | some r => hdrNumTail isDigitCh r
   | none => false) || hdrNumTail isDigitCh s

/-- Roman-numeral class `[ivxlcdm]` (the line is lowercased). -/
def isRomanCh (c : Char) : Bool :=
  c == 'i' || c == 'v' || c == 'x' || c == 'l' || c == 'c' || c == 'd' || c == 'm'

/-- Header pattern 4: `^(?:section\s+)?[ivxlcdm]+\.?\s+(H)(?:\s|$)`. -/
def hdrP4 (s : Str) : Bool :=
  (match dSection s with
   | some r => hdrNumTail isRomanCh r
   | none => false) || hdrNumTail isRomanCh s

/-- Header pattern 5: `^appendix\s+[a-z]\.?\s*:?\s*(H)(?:\s|$)`. -/
def hdrP5 (s : Str) : Bool :=
  dThen (dSeq (dLit (strL "appendix")) (dSeq (dPlus pyIsSpace)
    (fun r => (dOne isLowerCh r).map (fun r2 =>
      dStar pyIsSpace (dOptCh ':' (dStar pyIsSpace (dOptCh '.' r2)))))))
    (headerThen wsOrEnd) s

/-- Header pattern 6: `^\d+\s+(H)(?:\s|$)`. -/
def hdrP6 (s : Str) : Bool :=
  dThen (dSeq (dPlus isDigitCh) (dPlus pyIsSpace)) (headerThen wsOrEnd) s

/-- Header pattern 7 (concatenated): `^\d+(H)(?:\s|$)`. -/
def hdrP7 (s : Str) : Bool :=
  dThen (dPlus isDigitCh) (headerThen wsOrEnd) s

/-- Header pattern 8 (concatenated): `^page\d*(H)(?:\s|$)`. -/
def hdrP8 (s : Str) : Bool :=
  dThen (fun s => (dLit (strL "page") s).map (dStar isDigitCh)) (headerThen wsOrEnd) s

/-- The word alternation of header pattern 9 followed by `$`. -/
def hdrP9Word (r : Str) : Bool :=
  [strL "bibliography", strL "citations", strL "list", strL "sources"].any
    (fun w => w.isPrefixOf r && dollarEnd (r.drop w.length))

/-- Header pattern 9 (standalone):
`^(H)(?:\s+(?:and\s+)?(?:bibliography|citations|list|sources))?$`. -/
def hdrP9 (s : Str) : Bool :=
  headerThen (fun r =>
    dollarEnd r ||
      (match dPlus pyIsSpace r with
       | some r2 =>
         (match (dLit (strL "and") r2).bind (dPlus pyIsSpace) with
          | some r3 => hdrP9Word r3
          | none => false) || hdrP9Word r2
       | none => false)) s

/-- Header pattern 10 (combined): `^(H)\s+and\s+(H)$`. -/
def hdrP10 (s : Str) : Bool :=
  headerThen (fun r =>
    dThen (fun r => (dPlus pyIsSpace r).bind (fun r2 =>
      (dLit (strL "and") r2).bind (dPlus pyIsSpace)))
      (headerThen dollarEnd) r) s

/-- The ten header patterns, in code order. -/
def headerPatterns : List (Str → Bool) :=
  [hdrP1, hdrP2, hdrP3, hdrP4, hdrP5, hdrP6, hdrP7, hdrP8, hdrP9, hdrP10]

/-- The `sentence_indicators` list. -/
def sentenceIndicators : List Str :=
  [strL "the ", strL "this ", strL "these ", strL "those ", strL "for ",
   strL "see ", strL "in ", strL "of ", strL "to ", strL "with ", strL "from ",
   strL "and ", strL "or ", strL "but ", strL "however ", strL "therefore ",
   strL "according ", strL "based on"]

/-- Embedding of `contains_reference_header(line_text)` (code lines
176-226). -/
def containsReferenceHeader (lineText : Str) : Bool :=
  let lineLower := pyStrip (toLowerStr lineText)
  let headerAtStart := refHeaders.any (fun h =>
    h.isPrefixOf lineLower || quickHeaderNum h lineLower || quickHeaderPage h lineLower)
  if !headerAtStart && decide (lineLower.length > 100) then false
  else if !headerAtStart
      && sentenceIndicators.any (fun ind => occursIn ind lineLower) then false
  else headerPatterns.any (fun p => p lineLower)

/-- Embedding of `extract_content_after_header(line_text, ..)` (code
lines 228-242): slice after the first header found in the lowered line,
strip, and drop a leading `[\s\-.:]+` run.  The Python `header_found`
argument is unused by the source and omitted. -/
def extractContentAfterHeader (lineText : Str) : Str :=
  let lineLower := toLowerStr lineText
  match refHeaders.findSome? (fun h =>
    if occursIn h lineLower then
      match findSub h lineLower with
      | some pos => some (pyStrip (lineText.drop (pos + h.length)))
      | none => some (pyStrip lineText)
    else none) with
  | some remainder =>
    remainder.dropWhile (fun c => pyIsSpace c || c == '-' || c == '.' || c == ':')
  | none => []

/-- Lift a matcher to a `re.MULTILINE`-anchored one (matches only at a
line start). -/
def mlAnchored (m : RM) : Bool → RM := fun atLS s => if atLS then m s else []

/-- Lift a matcher that ignores the line-start flag. -/
def mlPlain (m : RM) : Bool → RM := fun _ => m

/-- The `ref_patterns` of `looks_like_references_section`, counted with
`re.findall(.., re.MULTILINE | re.IGNORECASE)`, in order:
`^\s*\[\d+\]`; `^\s*\d+\.`; `^\s*\d+\s+[A-Z]`;
`[A-Z][a-z]+,\s+[A-Z]\..*?\(\d{4}\)`; `et\s+al\.`; `doi:|DOI:` (both
alternatives coincide under IGNORECASE); `https?://`; `\(\d{4}\)`;
`vol\.\s*\d+|volume\s+\d+`; `pp?\.\s*\d+`. -/
def refSectionPatterns : List (Bool → RM) :=
  [ mlAnchored (rmCat [rmWs0, rmLit (strL "["), rmD1, rmLit (strL "]")])
  , mlAnchored (rmCat [rmWs0, rmD1, rmDot])
  , mlAnchored (rmCat [rmWs0, rmD1, rmWs1, rmAL])
  , mlPlain (rmCat [rmAL, rmAL1, rmComma, rmWs1, rmAL, rmDot, rmDotLazyStar,
      rmLP, rmD4, rmRP])
  , mlPlain (rmCat [rmLitCI (strL "et"), rmWs1, rmLitCI (strL "al"), rmDot])
  , mlPlain (rmLitCI (strL "doi:"))
  , mlPlain (rmCat [rmLitCI (strL "http"), rmOpt (rmLitCI (strL "s")), rmLit (strL "://")])
  , mlPlain (rmCat [rmLP, rmD4, rmRP])
  , mlPlain (rmAlt [rmCat [rmLitCI (strL "vol"), rmDot, rmWs0, rmD1],
      rmCat [rmLitCI (strL "volume"), rmWs1, rmD1]])
  , mlPlain (rmCat [rmLitCI (strL "p"), rmOpt (rmLitCI (strL "p")), rmDot, rmWs0, rmD1]) ]

/-- Embedding of `looks_like_references_section(lines_sample)` (code
lines 244-272): join the first 10 lines and require at least 3 pattern
hits in total. -/
def looksLikeRefsSection (linesSample : List Str) : Bool :=
  if linesSample.isEmpty then false
  else
    let sampleText := joinWith (strL "\n") (linesSample.take 10)
    decide ((refSectionPatterns.map (fun m => findallCount m sampleText)).sum ≥ 3)

/-- First pass: index of the first line whose stripped form contains a
reference header. -/
def findHeaderIdx : List Str → Nat → Option Nat
  | [], _ => none
  | l :: t, i =>
    if containsReferenceHeader (pyStrip l) then some i else findHeaderIdx t (i + 1)

/-- Index of the first page delimiter at position `i` or later. -/
def findPageFrom : List Str → Nat → Option Nat
  | [], _ => none
  | l :: t, i =>
    if isPageDelim (pyStrip l) then some i else findPageFrom t (i + 1)

/-- Pop leading and trailing blank lines
(the two `while content_lines ... pop` loops). -/
def trimEmptyEnds (ls : List Str) : List Str :=
  let ls := ls.dropWhile (fun l => (pyStrip l).isEmpty)
  (ls.reverse.dropWhile (fun l => (pyStrip l).isEmpty)).reverse

/-- Ascending indices of all page-delimiter lines. -/
def pageStartIdxs : List Str → Nat → List Nat
  | [], _ => []
  | l :: t, i =>
    if isPageDelim (pyStrip l) then i :: pageStartIdxs t (i + 1)
    else pageStartIdxs t (i + 1)

/-- The body/references result of the first pass once the header line
index `i` is known (code lines 276-341). -/
def firstPassResult (lines : List Str) (i : Nat) : Str × Str :=
  let lineStripped := pyStrip (lines.getD i [])
  let isAfterPageBreak := decide (0 < i) && isPageDelim (pyStrip (lines.getD (i - 1) []))
  let remainder := extractContentAfterHeader lineStripped
  let bodyBefore := if isAfterPageBreak then lines.take (i - 1) else lines.take i
  match findPageFrom (lines.drop (i + 1)) (i + 1) with
  | some j =>
    let contentLines := trimEmptyEnds ((lines.drop (i + 1)).take (j - (i + 1)))
    let refsLines := (if remainder.isEmpty then [] else [remainder]) ++ contentLines
    (joinWith (strL "\n") (bodyBefore ++ lines.drop j), joinWith (strL "\n") refsLines)
  | none =>
    let contentLines := trimEmptyEnds (lines.drop (i + 1))
    let refsLines := (if remainder.isEmpty then [] else [remainder]) ++ contentLines
    (joinWith (strL "\n") bodyBefore, joinWith (strL "\n") refsLines)

/-- Second pass (code lines 343-380): walk the last three page starts in
reverse; `next_page_start` is the first page start after the candidate
(its Python truthiness test never sees index 0, which cannot follow
another index). -/
def secondPassGo (lines : List Str) (ps : List Nat) : List Nat → Option (Str × Str)
  | [] => none
  | p :: rest =>
    let nextPageStart := ps.find? (fun q => decide (p < q))
    let pageLines :=
      match nextPageStart with
      | some q => (lines.drop (p + 1)).take (q - (p + 1))
      | none => lines.drop (p + 1)
    if pageLines.length < 5 then secondPassGo lines ps rest
    else if looksLikeRefsSection pageLines then
      let referencesText := joinWith (strL "\n") pageLines
      let bodyText :=
        match nextPageStart with
        | some q => joinWith (strL "\n") (lines.take p ++ lines.drop q)
        | none => joinWith (strL "\n") (lines.take p)
      some (bodyText, referencesText)
    else secondPassGo lines ps rest

/-- Third pass (code lines 382-391): for documents over 50 lines, test
the last quarter (`lines[-len(lines)//4:]`, i.e. the last
`ceil(len/4)` lines, by Python floor division of the negated length). -/
def thirdPass (lines : List Str) : Option (Str × Str) :=
  if decide (lines.length > 50) then
    let k := (lines.length + 3) / 4
    let lastQuarter := lines.drop (lines.length - k)
    if looksLikeRefsSection lastQuarter then
      let splitPoint := lines.length - lastQuarter.length
      some (joinWith (strL "\n") (lines.take splitPoint), joinWith (strL "\n") lastQuarter)
    else none
  else none

/-- Embedding of `split_body_and_references(text)`. -/
def splitBodyAndReferences (text : Str) : Str × Str :=
  let lines := splitOnCh '\n' text
  match findHeaderIdx lines 0 with
  | some i => firstPassResult lines i
  | none =>
    let ps := pageStartIdxs lines 0
    match secondPassGo lines ps ((ps.drop (ps.length - 3)).reverse) with
    | some r => r
    | none =>
      match thirdPass lines with
      | some r => r
      | none => (text, [])

/-! ## Rate limiter

Embedding of `RATE_LIMITS` (citation_analyzer.py lines 26-30, identical in
enhanced-pdf-extractor.py lines 755-759) and `check_rate_limit`
(citation_analyzer.py lines 135-148, identical in
enhanced-pdf-extractor.py lines 761-774). -/

/-- One entry of the `RATE_LIMITS` dictionary:
`{'requests': .., 'last_reset': .., 'max_requests': .., 'reset_interval': ..}`.
Timestamps are integer seconds. -/
structure RateBucket where
  requests : Nat
  lastReset : Int
  maxRequests : Nat
  resetInterval : Int
deriving DecidableEq

/-- The `RATE_LIMITS` dictionary: one bucket per known domain
(`dl.acm.org`, `doi.org`) plus the shared `default` bucket. -/
structure RateLimits where
  acm : RateBucket
  doi : RateBucket
  dflt : RateBucket
deriving DecidableEq

/-- The shipped configuration of `RATE_LIMITS`: `dl.acm.org` 10 req/60 s,
`doi.org` 30 req/60 s, `default` 50 req/60 s, all counters fresh at time
`t0` (module load time, `datetime.now()`). -/
def initialRateLimits (t0 : Int) : RateLimits :=
  { acm := { requests := 0, lastReset := t0, maxRequests := 10, resetInterval := 60 }
  , doi := { requests := 0, lastReset := t0, maxRequests := 30, resetInterval := 60 }
  , dflt := { requests := 0, lastReset := t0, maxRequests := 50, resetInterval := 60 } }

/-- Dictionary access `RATE_LIMITS.get(domain, RATE_LIMITS['default'])`. -/
def rateLookup (st : RateLimits) (domain : Str) : RateBucket :=
  if domain = strL "dl.acm.org" then st.acm
  else if domain = strL "doi.org" then st.doi
  else st.dflt

/-- Write the (shared, mutable) bucket addressed by `domain` back into the
dictionary; unrecognized domains address the shared `default` bucket. -/
def rateUpdate (st : RateLimits) (domain : Str) (b : RateBucket) : RateLimits :=
  if domain = strL "dl.acm.org" then { st with acm := b }
  else if domain = strL "doi.org" then { st with doi := b }
  else { st with dflt := b }

/-- Embedding of `check_rate_limit(domain)`: if the window has elapsed
(`(now - last_reset).total_seconds() > reset_interval`) reset the counter;
then deny (without incrementing) when `requests >= max_requests`,
otherwise increment and allow.  The mutation of the shared dictionary is
returned as the second component. -/
def checkRateLimit (now : Int) (domain : Str) (st : RateLimits) : Bool × RateLimits :=
  let rateInfo := rateLookup st domain
  let rateInfo :=
    if now - rateInfo.lastReset > rateInfo.resetInterval then
      { rateInfo with requests := 0, lastReset := now }
    else rateInfo
  if rateInfo.requests ≥ rateInfo.maxRequests then (false, rateUpdate st domain rateInfo)
  else (true, rateUpdate st domain { rateInfo with requests := rateInfo.requests + 1 })

/-- Iterate `check_rate_limit` over a list of call timestamps, threading
the shared `RATE_LIMITS` state, collecting the returned booleans. -/
def runRateCalls (times : List Int) (domain : Str) (st : RateLimits) :
    List Bool × RateLimits :=
  match times with
  | [] => ([], st)
  | t :: rest =>
    let r := checkRateLimit t domain st
    let rs := runRateCalls rest domain r.snd
    (r.fst :: rs.fst, rs.snd)


/-! ## Validation (enhanced-pdf-extractor.py)

Embedding of `is_valid_acm_url_format`, `extract_urls_from_text`,
`clean_doi`, `validate_doi`, `validate_url_with_fallback` and
`validate_reference` (enhanced-pdf-extractor.py lines 508-651 and
783-853).  The HTTP transport (`requests.head` / `requests.get` / the
`doi.org` GET) is an injected resolver oracle returning an optional
status code (`none` modelling a transport error, which the sources catch
and turn into `False`); each embedded function additionally returns the
trace of network calls it issued, and threads the shared rate-limit
state. -/

/-- Embedding of `is_valid_acm_url_format(url)` (lines 597-603): any of
`dl\.acm\.org/doi/(?:abs/|pdf/|)10\.\d+/[\d.]+` or
`dl\.acm\.org/citation\.cfm\?id=\d+`, searched with IGNORECASE. -/
def isValidAcmUrlFormat (url : Str) : Bool :=
  rmSearch (rmCat [rmLitCI (strL "dl.acm.org/doi/"),
    rmOpt (rmAlt [rmLitCI (strL "abs/"), rmLitCI (strL "pdf/")]),
    rmLit (strL "10."), rmD1, rmLit (strL "/"),
    rmPlusCh (fun c => isDigitCh c || c == '.')]) url
  || rmSearch (rmCat [rmLitCI (strL "dl.acm.org/citation.cfm?id="), rmD1]) url

/-- Character allowed inside a URL token of `extract_urls_from_text`:
the class `[^\s<>"\']`. -/
def urlTokCh (c : Char) : Bool :=
  !pyIsSpace c && c != '<' && c != '>' && c != '"' && c != '\''

/-- The URL pattern of `extract_urls_from_text` (IGNORECASE):
`(?:https?://|www\.)[^\s<>"\']+(?:\s+[^\s<>"\']+)*`. -/
def urlFinderPat : RM :=
  rmCat [rmAlt [rmCat [rmLitCI (strL "http"), rmOpt (rmLitCI (strL "s")),
      rmLit (strL "://")], rmLitCI (strL "www.")],
    rmPlusCh urlTokCh, rmStar (rmCat [rmWs1, rmPlusCh urlTokCh])]

/-- The scan of `re.finditer`: collect the non-overlapping leftmost
matches (each the preferred, greedy one), left to right. -/
def finditerGo (m : RM) : Nat → Str → List Str
  | 0, _ => []
  | _ + 1, [] => []
  | fuel + 1, c :: t =>
    match (m (c :: t)).head? with
    | some r =>
      let len := (c :: t).length - r.length
      if len = 0 then finditerGo m fuel t
      else (c :: t).take len :: finditerGo m fuel ((c :: t).drop len)
    | none => finditerGo m fuel t

/-- Embedding of `extract_urls_from_text(text)` (lines 508-518): clean
each raw match, keeping the truthy results. -/
def extractUrlsFromText (text : Str) : List Str :=
  (finditerGo urlFinderPat (text.length + 1) text).filterMap cleanUrl

/-- Embedding of `clean_doi(doi)` (lines 760-777): lower-case and strip,
peel known resolver prefixes (each test in sequence), drop all
whitespace, strip trailing `.,;`, and reduce to the first match of
`(10\.\d{4,}/[-._;()/:\w]+)` when there is one. -/
def cleanDoi (doi : Str) : Option Str :=
  if doi.isEmpty then none
  else
    let doi := pyStrip (toLowerStr doi)
    let doi := if (strL "doi:").isPrefixOf doi then pyStrip (doi.drop 4) else doi
    let doi := if (strL "https://doi.org/").isPrefixOf doi then pyStrip (doi.drop 16) else doi
    let doi := if (strL "http://doi.org/").isPrefixOf doi then pyStrip (doi.drop 15) else doi
    let doi := if (strL "dx.doi.org/").isPrefixOf doi then pyStrip (doi.drop 11) else doi
    let doi := (pySplitWs doi).flatten
    let doi := stripTrailingRun (strL ".,;") doi
    match rmSearchGroupMid rmEps doiCore rmEps doi with
    | some m => some m
    | none => some doi

/-- The injected HTTP transport: status of a HEAD request, of a GET
request, and of the `https://doi.org/<doi>` GET of `validate_doi`;
`none` models a transport error (a raised exception). -/
structure Resolver where
  headStatus : Str → Option Nat
  getStatus : Str → Option Nat
  doiStatus : Str → Option Nat

/-- One outbound network call. -/
inductive NetCall where
  | headReq : Str → NetCall
  | getReq : Str → NetCall
  | doiReq : Str → NetCall
deriving DecidableEq

/-- Embedding of `validate_doi(doi)` (lines 779-802): clean the DOI,
resolve `https://doi.org/<doi>` and accept exactly on status 200; a
transport error yields `False`.  The second component is the list of
network calls issued. -/
def validateDoi (R : Resolver) (doi : Str) : Bool × List NetCall :=
  if doi.isEmpty then (false, [])
  else
    match cleanDoi doi with
    | none => (false, [])
    | some d =>
      if d.isEmpty then (false, [])
      else
        match R.doiStatus d with
        | some status => (status == 200, [NetCall.doiReq d])
        | none => (false, [NetCall.doiReq d])

/-- Embedding of `validate_url_with_fallback(url)` (lines 804-853):
clean the URL; accept a `dl.acm.org` URL purely by format; resolve an
embedded DOI through `validate_doi`; otherwise gate on the rate limiter
for the URL's domain (returning `none` — the Python `None` — when
denied), issue a HEAD request, retry with GET exactly when the HEAD
status is 403, 405 or 406, and accept exactly on final status 200. -/
def validateUrlWithFallback (R : Resolver) (now : Int) (st : RateLimits) (url : Str) :
    Option Bool × RateLimits × List NetCall :=
  if url.isEmpty then (some false, st, [])
  else
    match cleanUrl url with
    | none => (some false, st, [])
    | some u =>
      if occursIn (strL "dl.acm.org") u then (some (isValidAcmUrlFormat u), st, [])
      else
        match extractDoiFromUrl u with
        | some d =>
          let v := validateDoi R d
          (some v.1, st, v.2)
        | none =>
          let domain := getDomain u
          if domain.isEmpty then (some false, st, [])
          else
            let c := checkRateLimit now domain st
            if !c.1 then (none, c.2, [])
            else
              match R.headStatus u with
              | none => (some false, c.2, [NetCall.headReq u])
              | some s =>
                if s == 403 || s == 405 || s == 406 then
                  match R.getStatus u with
                  | none => (some false, c.2, [NetCall.headReq u, NetCall.getReq u])
                  | some s2 => (some (s2 == 200), c.2, [NetCall.headReq u, NetCall.getReq u])
                else (some (s == 200), c.2, [NetCall.headReq u])

/-- The `results` dictionary of the extractor's `validate_reference`. -/
structure ValidationResults where
  valid : Bool := false
  doiFound : Bool := false
  urlFound : Bool := false
  scholarSearch : Option Str := none
  message : Str := []
  rateLimited : Bool := false
  acmUrl : Bool := false
deriving DecidableEq

/-- The URL loop of `validate_reference` (lines 617-636); the final
boolean records whether the loop returned early (`return results`). -/
def vrLoop (R : Resolver) (now : Int) :
    List Str → ValidationResults → RateLimits → List NetCall →
    ValidationResults × RateLimits × List NetCall × Bool
  | [], res, st, calls => (res, st, calls, false)
  | url :: rest, res, st, calls =>
    if url.isEmpty then vrLoop R now rest res st calls
    else
      let res := { res with urlFound := true }
      let res := if occursIn (strL "dl.acm.org") url then { res with acmUrl := true } else res
      if occursIn (strL "dl.acm.org") url && isValidAcmUrlFormat url then
        let msg := strL "✅ Valid ACM Digital Library URL: " ++ url
        ({ res with valid := true, message := msg }, st, calls, true)
      else
        let v := validateUrlWithFallback R now st url
        match v.1 with
        | none =>
          let msg := strL "⚠️ Rate limit reached, skipped validation for: " ++ url
          vrLoop R now rest { res with rateLimited := true, message := msg }
            v.2.1 (calls ++ v.2.2)
        | some true =>
          let msg := strL "✅ Valid URL found: " ++ url
          ({ res with valid := true, message := msg }, v.2.1, calls ++ v.2.2, true)
        | some false => vrLoop R now rest res v.2.1 (calls ++ v.2.2)

/-- The fallback DOI pattern of `validate_reference` (line 640):
`(?i)doi:?\s*(10\.\d{4,}/[^\s,]+)`, `group(1)`. -/
def vrDoiRecheck (ref : Str) : Option Str :=
  rmSearchGroupMid (rmCat [rmLitCI (strL "doi"), rmOpt (rmLit (strL ":")), rmWs0])
    (rmCat [rmLit (strL "10."), rmRep 4 (rmOne isDigitCh), rmStarCh isDigitCh,
      rmLit (strL "/"), rmPlusCh (fun c => !pyIsSpace c && c != ',')])
    rmEps ref

/-- The scholar-link epilogue of `validate_reference` (lines 648-654). -/
def vrFinish (res : ValidationResults) (st : RateLimits) (calls : List NetCall) (ref : Str) :
    ValidationResults × RateLimits × List NetCall :=
  let link := strL "https://scholar.google.com/scholar?q=" ++ pyQuote (ref.take 200)
  let res := { res with scholarSearch := some link }
  let res :=
    if !res.valid then
      { res with message := strL "ℹ️ Reference needs manual verification: " ++ ref }
    else res
  (res, st, calls)

/-- Embedding of the extractor's `validate_reference(ref)` (lines
605-656): run the URL loop; if it did not return, re-check for a textual
DOI and validate it; finally attach the Google Scholar search link and a
default message. -/
def validateReference (R : Resolver) (now : Int) (st : RateLimits) (ref : Str) :
    ValidationResults × RateLimits × List NetCall :=
  let urls := extractUrlsFromText ref
  let lr := vrLoop R now urls {} st []
  if lr.2.2.2 then (lr.1, lr.2.1, lr.2.2.1)
  else
    let res := lr.1
    let st1 := lr.2.1
    let calls := lr.2.2.1
    if !res.valid then
      match vrDoiRecheck ref with
      | some doi =>
        let res := { res with doiFound := true }
        let v := validateDoi R doi
        if v.1 then
          ({ res with valid := true, message := strL "✅ Valid DOI found: " ++ doi },
           st1, calls ++ v.2)
        else vrFinish res st1 (calls ++ v.2) ref
      | none => vrFinish res st1 calls ref
    else vrFinish res st1 calls ref

/-! ## Notions used by the specifications -/

/-- The non-whitespace characters of a string, in order (the content the
round-trip property of the segmenter is about). -/
def nonWsChars (s : Str) : Str := s.filter (fun c => !pyIsSpace c)

/-- A resolver whose every request succeeds with status 200. -/
def resolverAlways200 : Resolver :=
  { headStatus := fun _ => some 200, getStatus := fun _ => some 200,
    doiStatus := fun _ => some 200 }

/-- A resolver whose HEAD requests return 403 and whose GET requests
succeed with status 200. -/
def resolverHead403 : Resolver :=
  { headStatus := fun _ => some 403, getStatus := fun _ => some 200,
    doiStatus := fun _ => some 200 }

/-! # Theorems -/

theorem rateLookup_doi (st : RateLimits) : rateLookup st (strL "doi.org") = st.doi := by
  unfold rateLookup
  rw [if_neg (by decide), if_pos rfl]

theorem rateUpdate_doi (st : RateLimits) (b : RateBucket) :
    rateUpdate st (strL "doi.org") b = { st with doi := b } := by
  unfold rateUpdate
  rw [if_neg (by decide), if_pos rfl]

theorem rateUpdate_self (st : RateLimits) (domain : Str) :
    rateUpdate st domain (rateLookup st domain) = st := by
  unfold rateUpdate rateLookup
  by_cases h1 : domain = strL "dl.acm.org"
  · rw [if_pos h1, if_pos h1]
  · rw [if_neg h1, if_neg h1]
    by_cases h2 : domain = strL "doi.org"
    · rw [if_pos h2, if_pos h2]
    · rw [if_neg h2, if_neg h2]

/-- Behaviour of a run of `doi.org` calls all landing inside the bucket's
current window: with `k` requests already counted, the first `30 - k`
calls are allowed (each incrementing the counter) and the rest denied,
and the window start is never touched. -/
theorem runRateCalls_doi_spec (ts : List Int) (k : Nat) (w0 : Int) (st : RateLimits)
    (hst : st.doi = { requests := k, lastReset := w0, maxRequests := 30, resetInterval := 60 })
    (hin : ∀ t ∈ ts, t - w0 ≤ 60) (hk : k ≤ 30) :
    runRateCalls ts (strL "doi.org") st =
      (List.replicate (min ts.length (30 - k)) true ++
         List.replicate (ts.length - (30 - k)) false,
       { st with doi := { requests := min 30 (k + ts.length), lastReset := w0,
                          maxRequests := 30, resetInterval := 60 } }) := by
  induction ts generalizing k st with
  | nil =>
    simp only [runRateCalls, List.length_nil]
    rw [(by omega : min (0 : Nat) (30 - k) = 0),
        (by omega : (0 : Nat) - (30 - k) = 0),
        (by omega : min 30 (k + 0) = k)]
    rw [← hst]
    rfl
  | cons t rest ih =>
    have hwin : ¬ t - w0 > 60 := not_lt.mpr (hin t (by simp))
    by_cases hk30 : k < 30
    · have hstep : checkRateLimit t (strL "doi.org") st =
          (true, { st with doi := { requests := k + 1, lastReset := w0,
                                    maxRequests := 30, resetInterval := 60 } }) := by
        unfold checkRateLimit
        rw [rateLookup_doi, hst]
        simp only
        rw [if_neg hwin, if_neg (by simpa using Nat.not_le.mpr hk30), rateUpdate_doi]
      have ihr := ih (k + 1)
        ({ st with doi := { requests := k + 1, lastReset := w0,
                            maxRequests := 30, resetInterval := 60 } })
        rfl (fun t ht => hin t (List.mem_cons_of_mem _ ht)) hk30
      simp only [runRateCalls, hstep, ihr]
      rw [Prod.mk.injEq]
      refine ⟨?_, ?_⟩
      · rw [(by simp only [List.length_cons]; omega :
              min (t :: rest).length (30 - k) = min rest.length (30 - (k + 1)) + 1),
            (by simp only [List.length_cons]; omega :
              (t :: rest).length - (30 - k) = rest.length - (30 - (k + 1)))]
        rw [List.replicate_succ, List.cons_append]
      · rw [(by simp only [List.length_cons]; omega :
              min 30 (k + (t :: rest).length) = min 30 (k + 1 + rest.length))]
    · have hkeq : k = 30 := le_antisymm hk (Nat.le_of_not_lt hk30)
      subst hkeq
      have hstep : checkRateLimit t (strL "doi.org") st = (false, st) := by
        unfold checkRateLimit
        rw [rateLookup_doi, hst]
        simp only
        rw [if_neg hwin, if_pos (by simp), rateUpdate_doi, ← hst]
      have ihr := ih 30 st hst (fun t ht => hin t (List.mem_cons_of_mem _ ht)) le_rfl
      simp only [runRateCalls, hstep, ihr]
      rw [Prod.mk.injEq]
      refine ⟨?_, ?_⟩
      · simp only [(by omega : (30 : Nat) - 30 = 0), min_zero, Nat.sub_zero,
          List.length_cons, List.replicate_zero, List.nil_append, List.replicate_succ]
      · rw [(by simp only [List.length_cons]; omega :
              min 30 (30 + (t :: rest).length) = min 30 (30 + rest.length))]

/-- C4: starting from a fresh `doi.org` bucket (count 0, max 30, 60-second
window starting at `w0`), 31 calls to `check_rate_limit("doi.org")` all
made within the window (`t - w0 ≤ 60`) return `True` for the first 30 and
`False` for the 31st; a further call made after the window has elapsed
(`t' - w0 > 60`) returns `True` again. -/
theorem checkRateLimit_doi_31 (ts : List Int) (w0 t' : Int)
    (hlen : ts.length = 31) (hin : ∀ t ∈ ts, t - w0 ≤ 60) (hlast : t' - w0 > 60) :
    (runRateCalls ts (strL "doi.org") (initialRateLimits w0)).fst
        = List.replicate 30 true ++ [false] ∧
    (checkRateLimit t' (strL "doi.org")
        (runRateCalls ts (strL "doi.org") (initialRateLimits w0)).snd).fst = true := by
  have hspec := runRateCalls_doi_spec ts 0 w0 (initialRateLimits w0) rfl hin (by omega)
  constructor
  · rw [hspec, hlen]
    rfl
  · rw [hspec]
    unfold checkRateLimit
    rw [rateLookup_doi]
    simp only
    have h60 : (60 : ℤ) < t' - w0 := hlast
    rw [if_pos h60]
    rfl

/-- Witness for C4 at a concrete schedule: all 31 calls at time 0 inside a
window opened at 0, and a final call at time 61. -/
theorem checkRateLimit_doi_31_witness :
    (runRateCalls (List.replicate 31 0) (strL "doi.org") (initialRateLimits 0)).fst
        = List.replicate 30 true ++ [false] ∧
    (checkRateLimit 61 (strL "doi.org")
        (runRateCalls (List.replicate 31 0) (strL "doi.org") (initialRateLimits 0)).snd).fst
        = true :=
  checkRateLimit_doi_31 (List.replicate 31 0) 0 61 (by decide)
    (fun t ht => by
      have : t = 0 := List.eq_of_mem_replicate ht
      omega)
    (by decide)

/-- C9: whenever `check_rate_limit` denies (returns `False`) and the
addressed bucket's window had not elapsed, the whole rate-limit state is
left exactly as it was: a denied call consumes no quota and moves no
window. -/
theorem checkRateLimit_denial_frame (now : Int) (domain : Str) (st : RateLimits)
    (hwin : ¬ now - (rateLookup st domain).lastReset > (rateLookup st domain).resetInterval)
    (hdeny : (checkRateLimit now domain st).fst = false) :
    (checkRateLimit now domain st).snd = st := by
  unfold checkRateLimit at hdeny ⊢
  simp only [if_neg hwin] at hdeny ⊢
  by_cases hge : (rateLookup st domain).requests ≥ (rateLookup st domain).maxRequests
  · rw [if_pos hge] at hdeny ⊢
    exact rateUpdate_self st domain
  · rw [if_neg hge] at hdeny
    exact absurd hdeny (by simp)

/-- Witness for C9: a `doi.org` bucket at its cap (30 of 30) inside a live
window; the denial leaves the state untouched. -/
theorem checkRateLimit_denial_frame_witness :
    (checkRateLimit 10 (strL "doi.org")
      { acm := { requests := 0, lastReset := 0, maxRequests := 10, resetInterval := 60 }
      , doi := { requests := 30, lastReset := 0, maxRequests := 30, resetInterval := 60 }
      , dflt := { requests := 0, lastReset := 0, maxRequests := 50, resetInterval := 60 } }).snd
    = { acm := { requests := 0, lastReset := 0, maxRequests := 10, resetInterval := 60 }
      , doi := { requests := 30, lastReset := 0, maxRequests := 30, resetInterval := 60 }
      , dflt := { requests := 0, lastReset := 0, maxRequests := 50, resetInterval := 60 } } :=
  checkRateLimit_denial_frame 10 (strL "doi.org") _ (by decide) (by decide)

/-! ## C7: the worked example -/

/-- C7: on the input `"[1] Smith, J. (2020). A Study. Journal X, 5(2), 10-20."`
the segmenter returns exactly that line as one reference; style detection
returns `APA` with confidence 1/3 (which is at least 0.3, APA's
author/year scoring beating IEEE's bracket-only scoring); and component
extraction under APA yields year `"2020"` and pages `"10-20"`. -/
theorem analyzePipeline_smith2020_example :
    extractReferencesMultiline (strL "[1] Smith, J. (2020). A Study. Journal X, 5(2), 10-20.")
        = [strL "[1] Smith, J. (2020). A Study. Journal X, 5(2), 10-20."] ∧
    detectCitationStyle (strL "[1] Smith, J. (2020). A Study. Journal X, 5(2), 10-20.")
        = (strL "APA", 1 / 3) ∧
    (3 : ℚ) / 10 ≤ 1 / 3 ∧
    (extractReferenceComponents (strL "[1] Smith, J. (2020). A Study. Journal X, 5(2), 10-20.")
        (strL "APA")).year = strL "2020" ∧
    (extractReferenceComponents (strL "[1] Smith, J. (2020). A Study. Journal X, 5(2), 10-20.")
        (strL "APA")).pages = strL "10-20" := by
  refine ⟨by decide, ?_, by norm_num, by decide, by decide⟩
  have hs : pyStrip (strL "[1] Smith, J. (2020). A Study. Journal X, 5(2), 10-20.")
      = strL "[1] Smith, J. (2020). A Study. Journal X, 5(2), 10-20." := by decide
  have eA : styleConfidence
      (strL "[1] Smith, J. (2020). A Study. Journal X, 5(2), 10-20.") apaStyle = 1 / 3 := by
    have h1 : apaStyle.patterns.any
        (fun p => p (strL "[1] Smith, J. (2020). A Study. Journal X, 5(2), 10-20."))
        = false := by decide
    have h2 : apaStyle.yearPattern
        (strL "[1] Smith, J. (2020). A Study. Journal X, 5(2), 10-20.") = true := by decide
    have h3 : apaStyle.authorPattern
        (strL "[1] Smith, J. (2020). A Study. Journal X, 5(2), 10-20.") = false := by decide
    have h4 : apaStyle.commonPunctuation.countP
        (fun kv => occursIn kv.2 (strL "[1] Smith, J. (2020). A Study. Journal X, 5(2), 10-20."))
        = 3 := by decide
    simp only [styleConfidence, styleScore, styleMaxScore, h1, h2, h3, h4]
    norm_num [apaStyle]
  have eM : styleConfidence
      (strL "[1] Smith, J. (2020). A Study. Journal X, 5(2), 10-20.") mlaStyle = 1 / 6 := by
    have h1 : mlaStyle.patterns.any
        (fun p => p (strL "[1] Smith, J. (2020). A Study. Journal X, 5(2), 10-20."))
        = false := by decide
    have h2 : mlaStyle.yearPattern
        (strL "[1] Smith, J. (2020). A Study. Journal X, 5(2), 10-20.") = false := by decide
    have h3 : mlaStyle.authorPattern
        (strL "[1] Smith, J. (2020). A Study. Journal X, 5(2), 10-20.") = false := by decide
    have h4 : mlaStyle.commonPunctuation.countP
        (fun kv => occursIn kv.2 (strL "[1] Smith, J. (2020). A Study. Journal X, 5(2), 10-20."))
        = 3 := by decide
    simp only [styleConfidence, styleScore, styleMaxScore, h1, h2, h3, h4]
    norm_num [mlaStyle]
  have eC : styleConfidence
      (strL "[1] Smith, J. (2020). A Study. Journal X, 5(2), 10-20.") chicagoStyle
      = 5 / 18 := by
    have h1 : chicagoStyle.patterns.any
        (fun p => p (strL "[1] Smith, J. (2020). A Study. Journal X, 5(2), 10-20."))
        = false := by decide
    have h2 : chicagoStyle.yearPattern
        (strL "[1] Smith, J. (2020). A Study. Journal X, 5(2), 10-20.") = true := by decide
    have h3 : chicagoStyle.authorPattern
        (strL "[1] Smith, J. (2020). A Study. Journal X, 5(2), 10-20.") = false := by decide
    have h4 : chicagoStyle.commonPunctuation.countP
        (fun kv => occursIn kv.2 (strL "[1] Smith, J. (2020). A Study. Journal X, 5(2), 10-20."))
        = 2 := by decide
    simp only [styleConfidence, styleScore, styleMaxScore, h1, h2, h3, h4]
    norm_num [chicagoStyle]
  have eI : styleConfidence
      (strL "[1] Smith, J. (2020). A Study. Journal X, 5(2), 10-20.") ieeeStyle = 1 / 9 := by
    have h1 : ieeeStyle.patterns.any
        (fun p => p (strL "[1] Smith, J. (2020). A Study. Journal X, 5(2), 10-20."))
        = false := by decide
    have h2 : ieeeStyle.yearPattern
        (strL "[1] Smith, J. (2020). A Study. Journal X, 5(2), 10-20.") = false := by decide
    have h3 : ieeeStyle.authorPattern
        (strL "[1] Smith, J. (2020). A Study. Journal X, 5(2), 10-20.") = false := by decide
    have h4 : ieeeStyle.commonPunctuation.countP
        (fun kv => occursIn kv.2 (strL "[1] Smith, J. (2020). A Study. Journal X, 5(2), 10-20."))
        = 2 := by decide
    simp only [styleConfidence, styleScore, styleMaxScore, h1, h2, h3, h4]
    norm_num [ieeeStyle]
  have eAC : styleConfidence
      (strL "[1] Smith, J. (2020). A Study. Journal X, 5(2), 10-20.") acmStyle = 1 / 15 := by
    have h1 : acmStyle.patterns.any
        (fun p => p (strL "[1] Smith, J. (2020). A Study. Journal X, 5(2), 10-20."))
        = false := by decide
    have h2 : acmStyle.yearPattern
        (strL "[1] Smith, J. (2020). A Study. Journal X, 5(2), 10-20.") = false := by decide
    have h3 : acmStyle.authorPattern
        (strL "[1] Smith, J. (2020). A Study. Journal X, 5(2), 10-20.") = false := by decide
    have h4 : acmStyle.commonPunctuation.countP
        (fun kv => occursIn kv.2 (strL "[1] Smith, J. (2020). A Study. Journal X, 5(2), 10-20."))
        = 3 := by decide
    simp only [styleConfidence, styleScore, styleMaxScore, h1, h2, h3, h4]
    norm_num [acmStyle]
  simp only [detectCitationStyle, hs, citationStyleList, List.foldl_cons, List.foldl_nil,
    eA, eM, eC, eI, eAC]
  norm_num
  decide

/-! ## C2: content preservation of the segmenter -/

lemma nonWsChars_append (a b : Str) :
    nonWsChars (a ++ b) = nonWsChars a ++ nonWsChars b := List.filter_append ..

lemma nonWsChars_cons (c : Char) (t : Str) :
    nonWsChars (c :: t) =
      if pyIsSpace c then nonWsChars t else c :: nonWsChars t := by
  by_cases h : pyIsSpace c <;> simp [nonWsChars, List.filter_cons, h]

lemma nonWsChars_dropWhile (s : Str) :
    nonWsChars (s.dropWhile pyIsSpace) = nonWsChars s := by
  induction s with
  | nil => rfl
  | cons c t ih =>
    rw [List.dropWhile_cons]
    by_cases h : pyIsSpace c
    · rw [if_pos h, ih, nonWsChars_cons, if_pos h]
    · rw [if_neg h]

lemma nonWsChars_takeWhile_reverse (s : Str) :
    nonWsChars ((s.takeWhile pyIsSpace).reverse) = [] := by
  unfold nonWsChars
  rw [List.filter_reverse, List.reverse_eq_nil_iff, List.filter_eq_nil_iff]
  intro a ha
  simp [List.mem_takeWhile_imp ha]

lemma nonWsChars_pyRstrip (s : Str) : nonWsChars (pyRstrip s) = nonWsChars s := by
  have hAB : s = (s.reverse.dropWhile pyIsSpace).reverse
      ++ (s.reverse.takeWhile pyIsSpace).reverse := by
    conv_lhs => rw [← s.reverse_reverse,
      ← List.takeWhile_append_dropWhile pyIsSpace s.reverse, List.reverse_append]
  have hlen : ((s.reverse.dropWhile pyIsSpace).reverse).length
      = s.length - (s.reverse.takeWhile pyIsSpace).length := by
    have h := congrArg List.length (List.takeWhile_append_dropWhile pyIsSpace s.reverse)
    simp only [List.length_append, List.length_reverse] at h ⊢
    omega
  have hB : nonWsChars ((s.reverse.takeWhile pyIsSpace).reverse) = [] :=
    nonWsChars_takeWhile_reverse s.reverse
  generalize hA : (s.reverse.dropWhile pyIsSpace).reverse = A at hAB hlen
  generalize hBdef : (s.reverse.takeWhile pyIsSpace).reverse = B at hAB hB
  unfold pyRstrip
  rw [← hlen]
  conv_lhs => rw [hAB]
  rw [List.take_left]
  conv_rhs => rw [hAB]
  rw [nonWsChars_append, hB, List.append_nil]

lemma nonWsChars_pyStrip (s : Str) : nonWsChars (pyStrip s) = nonWsChars s := by
  unfold pyStrip pyLstrip
  rw [nonWsChars_pyRstrip, nonWsChars_dropWhile]

lemma nonWsChars_joinWith_space (l : List Str) :
    nonWsChars (joinWith (strL " ") l) = (l.map nonWsChars).flatten := by
  induction l with
  | nil => rfl
  | cons s r ih =>
    cases r with
    | nil => simp [joinWith]
    | cons s2 r2 =>
      have hsep : nonWsChars (strL " ") = [] := by decide
      calc nonWsChars (joinWith (strL " ") (s :: s2 :: r2))
          = nonWsChars (s ++ (strL " " ++ joinWith (strL " ") (s2 :: r2))) := by
            simp [joinWith, List.append_assoc]
        _ = nonWsChars s ++ (nonWsChars (strL " ")
              ++ nonWsChars (joinWith (strL " ") (s2 :: r2))) := by
            rw [nonWsChars_append, nonWsChars_append]
        _ = nonWsChars s ++ ((s2 :: r2).map nonWsChars).flatten := by
            rw [hsep, ih]; simp
        _ = ((s :: s2 :: r2).map nonWsChars).flatten := by
            simp

lemma splitOnCh_ne_nil (sep : Char) (s : Str) : splitOnCh sep s ≠ [] := by
  induction s with
  | nil => simp [splitOnCh]
  | cons c t ih =>
    cases h : splitOnCh sep t with
    | nil => exact absurd h ih
    | cons a r =>
      simp only [splitOnCh, h]
      by_cases hc : c == sep <;> simp [hc]

lemma nonWsChars_flatten_splitOnCh (s : Str) :
    ((splitOnCh '\n' s).map nonWsChars).flatten = nonWsChars s := by
  induction s with
  | nil => rfl
  | cons c t ih =>
    cases h : splitOnCh '\n' t with
    | nil => exact absurd h (splitOnCh_ne_nil '\n' t)
    | cons a r =>
      rw [h] at ih
      simp only [List.map_cons, List.flatten_cons] at ih
      by_cases hc : c = '\n'
      · subst hc
        simp only [splitOnCh, h, if_pos (by decide : ('\n' == '\n') = true)]
        simp only [List.map_cons, List.flatten_cons]
        rw [nonWsChars_cons, if_pos (by decide : pyIsSpace '\n' = true)]
        simpa using ih
      · have hcb : (c == '\n') = false := by simpa using hc
        simp only [splitOnCh, h, hcb, Bool.false_eq_true, if_false]
        simp only [List.map_cons, List.flatten_cons]
        rw [nonWsChars_cons, nonWsChars_cons]
        by_cases hsp : pyIsSpace c
        · rw [if_pos hsp, if_pos hsp, ← ih]
        · rw [if_neg hsp, if_neg hsp, ← ih, List.cons_append]

lemma flushedSegs_nonWs (cur acc : List Str) :
    (((if cur.isEmpty then acc
        else acc ++ [pyStrip (joinWith (strL " ") cur)])).map nonWsChars).flatten
      = (acc.map nonWsChars).flatten ++ (cur.map nonWsChars).flatten := by
  by_cases h : cur.isEmpty
  · rw [if_pos h, List.isEmpty_iff.mp h]
    simp
  · rw [if_neg h]
    simp [List.map_append, List.flatten_append, nonWsChars_pyStrip,
      nonWsChars_joinWith_space]

lemma segmentLoop_nonWs (lines : List Str) (prev : Option Str) (cur acc : List Str) :
    ((segmentLoop lines prev cur acc).map nonWsChars).flatten
      = (acc.map nonWsChars).flatten ++ (cur.map nonWsChars).flatten
        ++ (lines.map nonWsChars).flatten := by
  induction lines generalizing prev cur acc with
  | nil =>
    simp only [segmentLoop, List.map_nil, List.flatten_nil, List.append_nil]
    exact flushedSegs_nonWs cur acc
  | cons line rest ih =>
    simp only [segmentLoop]
    by_cases hb : (pyStrip line).isEmpty
    · rw [if_pos hb]
      rw [ih]
      have hline : nonWsChars line = [] := by
        rw [← nonWsChars_pyStrip, List.isEmpty_iff.mp hb]
        rfl
      rw [flushedSegs_nonWs]
      simp [hline, List.append_assoc]
    · rw [if_neg hb]
      by_cases h1 : looksLikeNewReference (pyStrip line) prev
          || isReferenceStart (pyStrip line)
      · rw [if_pos h1, ih, flushedSegs_nonWs]
        simp [nonWsChars_pyStrip, List.append_assoc]
      · rw [if_neg h1]
        by_cases h2 : !cur.isEmpty && (isContinuationLine (pyStrip line)
            || !looksLikeNewReference (pyStrip line) prev)
        · rw [if_pos h2, ih]
          simp [List.map_append, List.flatten_append, nonWsChars_pyStrip,
            List.append_assoc]
        · rw [if_neg h2, ih, flushedSegs_nonWs]
          simp [nonWsChars_pyStrip, List.append_assoc]

/-- C2 counterexample: on the input `"x"` the state machine produces the
single segment `"x"`, but the post-filter of
`extract_references_multiline` drops it (it is not longer than 20
characters), so joining the returned segments loses the non-whitespace
character `x` — the claimed round trip fails for `references_raw = "x"`. -/
theorem extractReferencesMultiline_drops_content_cex :
    extractReferencesMultiline (strL "x") = [] ∧
    nonWsChars (joinWith (strL " ")
        (extractReferencesMultiline (strL "x"))) ≠ nonWsChars (strL "x") := by
  refine ⟨by decide, ?_⟩
  decide

/-- C2 (amended): the segmentation state machine of
`extract_references_multiline` (before its post-filter) is content
preserving — joining the raw segments with single spaces preserves every
non-whitespace character of `references_raw`, in order.  The round trip
claimed for the full function fails only at the post-filter, which
discards whole segments (see the counterexample). -/
theorem rawReferenceSegments_preserve_nonWs (text : Str) :
    nonWsChars (joinWith (strL " ") (rawReferenceSegments text)) = nonWsChars text := by
  rw [nonWsChars_joinWith_space, rawReferenceSegments, segmentLoop_nonWs]
  simp [nonWsChars_flatten_splitOnCh]

/-! ## C8: identifier normalization -/

lemma takeWhile_append_all (p : Char → Bool) (a b : Str) (ha : ∀ c ∈ a, p c = true) :
    (a ++ b).takeWhile p = a ++ b.takeWhile p := by
  induction a with
  | nil => rfl
  | cons c t ih =>
    have hc : p c = true := ha c (by simp)
    simp [List.takeWhile_cons, hc, ih (fun x hx => ha x (by simp [hx]))]

lemma isPrefixOf_append_self (a b : Str) : a.isPrefixOf (a ++ b) = true := by
  induction a with
  | nil => cases b <;> rfl
  | cons c t ih => simp [List.isPrefixOf, ih]

lemma urlShape_of_https_dotted (p t : Str)
    (hp : ∀ c ∈ p, (c != '\n') = true)
    (hdot : '.' ∈ (p.drop 1).dropLast) :
    urlShape (strL "https://" ++ (p ++ t)) = true := by
  simp only [urlShape]
  have hpre : ((strL "https://").isPrefixOf (strL "https://" ++ (p ++ t))) = true :=
    isPrefixOf_append_self _ _
  rw [if_pos hpre]
  have hdrop : (strL "https://" ++ (p ++ t)).drop 8 = p ++ t := by
    have h8 : (8 : Nat) = (strL "https://").length := rfl
    rw [h8, List.drop_left]
  rw [hdrop, takeWhile_append_all _ p _ hp]
  cases p with
  | nil => simp at hdot
  | cons c q =>
    simp only [List.drop_one, List.tail_cons] at hdot
    rw [List.cons_append, List.drop_one, List.tail_cons]
    cases htw : (t.takeWhile (fun c => c != '\n')) with
    | nil =>
      rw [List.append_nil]
      exact List.elem_iff.mpr hdot
    | cons d u =>
      rw [List.dropLast_append_of_ne_nil q (List.cons_ne_nil d u)]
      exact List.elem_iff.mpr (List.mem_append_left _ (List.mem_of_mem_dropLast hdot))

lemma urlShape_doiOrgPrefixed (t : Str) :
    urlShape (strL "https://doi.org/" ++ t) = true := by
  have h : strL "https://doi.org/" ++ t = strL "https://" ++ (strL "doi.org/" ++ t) := by
    rw [← List.append_assoc]
    rw [show strL "https://" ++ strL "doi.org/" = strL "https://doi.org/" from by decide]
  rw [h]
  exact urlShape_of_https_dotted (strL "doi.org/") t (by decide) (by decide)

lemma urlShape_dlAcmPrefixed (t : Str) :
    urlShape (strL "https://dl.acm.org/doi/" ++ t) = true := by
  have h : strL "https://dl.acm.org/doi/" ++ t
      = strL "https://" ++ (strL "dl.acm.org/doi/" ++ t) := by
    rw [← List.append_assoc]
    rw [show strL "https://" ++ strL "dl.acm.org/doi/" = strL "https://dl.acm.org/doi/"
      from by decide]
  rw [h]
  exact urlShape_of_https_dotted (strL "dl.acm.org/doi/") t (by decide) (by decide)

lemma ite_shape_helper (F r : Str)
    (h : (if urlShape F then some F else none) = some r) : urlShape r = true := by
  split at h
  · next hc =>
    rw [← Option.some.inj h]
    exact hc
  · exact absurd h (by simp)

lemma cleanUrlParse_shape (url r : Str) (h : cleanUrlParse url = some r) :
    urlShape r = true := by
  simp only [cleanUrlParse] at h
  exact ite_shape_helper _ _ h

lemma cleanUrlTail_shape (url r : Str) (h : cleanUrlTail url = some r) :
    urlShape r = true := by
  simp only [cleanUrlTail] at h
  split at h
  · split at h
    · exact cleanUrlParse_shape _ _ h
    · exact absurd h (by simp)
  · exact cleanUrlParse_shape _ _ h

lemma cleanUrlCore_shape (U r : Str) (h : cleanUrlCore U = some r) :
    urlShape r = true := by
  simp only [cleanUrlCore] at h
  split at h
  · split at h
    · split at h
      · rw [← Option.some.inj h]
        exact urlShape_dlAcmPrefixed _
      · rw [← Option.some.inj h]
        exact urlShape_doiOrgPrefixed _
    · exact cleanUrlTail_shape _ _ h
  · exact cleanUrlTail_shape _ _ h

lemma cleanUrl_shape (url r : Str) (h : cleanUrl url = some r) : urlShape r = true := by
  simp only [cleanUrl] at h
  split at h
  · exact absurd h (by simp)
  · exact cleanUrlCore_shape _ _ h

/-- C8 counterexample: the claim quantifies over every string containing
the token `doi:10.1145/1188913.1188915`.  The string
`"doi:10.1145/1188913.11889150"` contains that token, yet
`extract_doi_from_url` returns the longer DOI
`10.1145/1188913.11889150` (the regex match is greedy and does not stop
at the token boundary), not `10.1145/1188913.1188915`. -/
theorem extractDoiFromUrl_token_cex :
    occursIn (strL "doi:10.1145/1188913.1188915")
        (strL "doi:10.1145/1188913.11889150") = true ∧
    extractDoiFromUrl (strL "doi:10.1145/1188913.11889150")
        = some (strL "10.1145/1188913.11889150") ∧
    extractDoiFromUrl (strL "doi:10.1145/1188913.11889150")
        ≠ some (strL "10.1145/1188913.1188915") := by
  refine ⟨by decide, by decide, ?_⟩
  decide

/-- C8 (amended): on the exact token `"doi:10.1145/1188913.1188915"`,
`extract_doi_from_url` returns `10.1145/1188913.1188915` and `clean_url`
returns the canonical `https://doi.org/10.1145/1188913.1188915`; and the
shape invariant holds universally: every non-`None` result of
`clean_url` matches `https?://<host>.<tld>/...` (the DOI early returns
satisfy it by construction of their fixed prefixes, and the urlparse
tail is guarded by the shape check itself). -/
theorem extractDoi_cleanUrl_canonical :
    extractDoiFromUrl (strL "doi:10.1145/1188913.1188915")
        = some (strL "10.1145/1188913.1188915") ∧
    cleanUrl (strL "doi:10.1145/1188913.1188915")
        = some (strL "https://doi.org/10.1145/1188913.1188915") ∧
    ∀ url r, cleanUrl url = some r → urlShape r = true := by
  exact ⟨by decide, by decide, fun url r h => cleanUrl_shape url r h⟩

/-! ## C3: ACM fast path -/

/-- C3 counterexample: the claim quantifies over every reference
containing a canonical ACM URL.  The reference
`http://a.com/b "q" https://dl.acm.org/doi/10.1145/123456.123456`
contains one (and it passes the format check), yet validation issues a
HEAD request for the other URL `http://a.com/b`, which is extracted
first — the network-call trace is not empty. -/
theorem validateReference_acm_anywhere_cex :
    occursIn (strL "https://dl.acm.org/doi/10.1145/123456.123456")
        (strL "http://a.com/b \"q\" https://dl.acm.org/doi/10.1145/123456.123456") = true ∧
    isValidAcmUrlFormat (strL "https://dl.acm.org/doi/10.1145/123456.123456") = true ∧
    (validateReference resolverAlways200 0 (initialRateLimits 0)
        (strL "http://a.com/b \"q\" https://dl.acm.org/doi/10.1145/123456.123456")).2.2
      ≠ ([] : List NetCall) := by
  refine ⟨by decide, by decide, ?_⟩
  decide

/-- C3 (amended): when the first URL candidate extracted from the
reference is an ACM Digital Library URL of the canonical shape, the
validator marks the reference valid by format alone: no resolver call is
made, the rate-limiter state is untouched, and the result records the
ACM fast-path message. -/
theorem validateReference_acm_first (R : Resolver) (now : Int) (st : RateLimits)
    (ref url : Str) (rest : List Str)
    (hurls : extractUrlsFromText ref = url :: rest)
    (hacm : occursIn (strL "dl.acm.org") url = true)
    (hfmt : isValidAcmUrlFormat url = true) :
    validateReference R now st ref
      = ({ valid := true, doiFound := false, urlFound := true, scholarSearch := none,
           message := strL "✅ Valid ACM Digital Library URL: " ++ url,
           rateLimited := false, acmUrl := true }, st, ([] : List NetCall)) := by
  have hne : url.isEmpty = false := by
    cases url with
    | nil => exact absurd hacm (by decide)
    | cons c t => rfl
  have hloop : vrLoop R now (url :: rest) {} st []
      = ({ valid := true, doiFound := false, urlFound := true, scholarSearch := none,
           message := strL "✅ Valid ACM Digital Library URL: " ++ url,
           rateLimited := false, acmUrl := true }, st, ([] : List NetCall), true) := by
    simp only [vrLoop, hne, hacm, hfmt]
    simp
  simp only [validateReference, hurls, hloop]
  simp

/-- Witness for the amended C3 theorem at a concrete ACM reference. -/
theorem validateReference_acm_first_witness :
    validateReference resolverAlways200 0 (initialRateLimits 0)
        (strL "https://dl.acm.org/doi/10.1145/123456.123456")
      = ({ valid := true, doiFound := false, urlFound := true, scholarSearch := none,
           message := strL "✅ Valid ACM Digital Library URL: "
             ++ strL "https://dl.acm.org/doi/10.1145/123456.123456",
           rateLimited := false, acmUrl := true }, initialRateLimits 0, ([] : List NetCall)) :=
  validateReference_acm_first resolverAlways200 0 (initialRateLimits 0)
    (strL "https://dl.acm.org/doi/10.1145/123456.123456")
    (strL "https://dl.acm.org/doi/10.1145/123456.123456") []
    (by decide) (by decide) (by decide)

/-! ## C5: the bare-URL branch -/

/-- C5 counterexample: the reference `https://dl.acm.org/junkpage`
contains a bare URL, no canonical ACM URL and no DOI, yet the validator
returns invalid immediately: it never consults the rate limiter (the
state is unchanged) and issues no HEAD request at all (the `dl.acm.org`
substring routes it to the format-only branch), even though every
request of the injected resolver would have succeeded. -/
theorem validateReference_bare_acm_cex :
    extractUrlsFromText (strL "https://dl.acm.org/junkpage")
        = [strL "https://dl.acm.org/junkpage"] ∧
    isValidAcmUrlFormat (strL "https://dl.acm.org/junkpage") = false ∧
    extractDoiFromUrl (strL "https://dl.acm.org/junkpage") = none ∧
    (validateReference resolverAlways200 0 (initialRateLimits 0)
        (strL "https://dl.acm.org/junkpage")).1.valid = false ∧
    (validateReference resolverAlways200 0 (initialRateLimits 0)
        (strL "https://dl.acm.org/junkpage")).2.1 = initialRateLimits 0 ∧
    (validateReference resolverAlways200 0 (initialRateLimits 0)
        (strL "https://dl.acm.org/junkpage")).2.2 = ([] : List NetCall) := by
  refine ⟨by decide, by decide, by decide, by decide, by decide, by decide⟩

/-- C5 (amended): for a URL whose cleaned form mentions no `dl.acm.org`
substring at all and contains no extractable DOI but has a domain, the
fallback validator follows the claimed protocol exactly: it consults the
rate limiter for the URL's domain and keeps its updated state; on denial
it returns `None` with no network call; otherwise it issues a HEAD
request, retries with a GET exactly when the HEAD status is 403, 405 or
406, issues no other call, and reports the URL resolvable exactly on a
final status of 200. -/
theorem validateUrlWithFallback_bare_url_spec (R : Resolver) (now : Int) (st : RateLimits)
    (url u : Str) (hclean : cleanUrl url = some u)
    (hacm : occursIn (strL "dl.acm.org") u = false)
    (hdoi : extractDoiFromUrl u = none)
    (hdom : (getDomain u).isEmpty = false) :
    (validateUrlWithFallback R now st url).2.1 = (checkRateLimit now (getDomain u) st).2 ∧
    ((checkRateLimit now (getDomain u) st).1 = false →
      validateUrlWithFallback R now st url
        = (none, (checkRateLimit now (getDomain u) st).2, [])) ∧
    ((checkRateLimit now (getDomain u) st).1 = true →
      ((validateUrlWithFallback R now st url).2.2 = [NetCall.headReq u] ∨
       (validateUrlWithFallback R now st url).2.2 = [NetCall.headReq u, NetCall.getReq u])) ∧
    ((checkRateLimit now (getDomain u) st).1 = true →
      ((validateUrlWithFallback R now st url).2.2
          = [NetCall.headReq u, NetCall.getReq u] ↔
        ∃ s, R.headStatus u = some s ∧ (s = 403 ∨ s = 405 ∨ s = 406))) ∧
    ((validateUrlWithFallback R now st url).1 = some true ↔
      (checkRateLimit now (getDomain u) st).1 = true ∧
      ((∃ s, R.headStatus u = some s ∧ ¬(s = 403 ∨ s = 405 ∨ s = 406) ∧ s = 200) ∨
       (∃ s, R.headStatus u = some s ∧ (s = 403 ∨ s = 405 ∨ s = 406) ∧
         R.getStatus u = some 200))) := by
  have hne : url.isEmpty = false := by
    cases url with
    | nil =>
      rw [show cleanUrl [] = none from by decide] at hclean
      exact absurd hclean (by simp)
    | cons c t => rfl
  cases hc : (checkRateLimit now (getDomain u) st).1 with
  | false =>
    have hred : validateUrlWithFallback R now st url
        = (none, (checkRateLimit now (getDomain u) st).2, []) := by
      simp [validateUrlWithFallback, hne, hclean, hacm, hdoi, hdom, hc]
    rw [hred]
    refine ⟨rfl, fun _ => rfl, fun h => Bool.noConfusion h,
      fun h => Bool.noConfusion h, ?_⟩
    constructor
    · intro h
      exact absurd h (by simp)
    · rintro ⟨h1, -⟩
      exact Bool.noConfusion h1
  | true =>
    cases hh : R.headStatus u with
    | none =>
      have hred : validateUrlWithFallback R now st url
          = (some false, (checkRateLimit now (getDomain u) st).2, [NetCall.headReq u]) := by
        simp [validateUrlWithFallback, hne, hclean, hacm, hdoi, hdom, hc, hh]
      rw [hred]
      refine ⟨rfl, fun h => Bool.noConfusion h, fun _ => Or.inl rfl, fun _ => ?_, ?_⟩
      · constructor
        · intro h
          exact absurd h (by simp)
        · rintro ⟨s, hs, -⟩
          exact absurd hs (by simp)
      · constructor
        · intro h
          exact absurd h (by simp)
        · rintro ⟨-, ⟨s, hs, -, -⟩ | ⟨s, hs, -, -⟩⟩ <;> exact absurd hs (by simp)
    | some s =>
      by_cases hs : (s == 403 || s == 405 || s == 406) = true
      · have hsp : s = 403 ∨ s = 405 ∨ s = 406 := by
          have h := hs
          simp at h
          tauto
        cases hg : R.getStatus u with
        | none =>
          have hred : validateUrlWithFallback R now st url
              = (some false, (checkRateLimit now (getDomain u) st).2,
                 [NetCall.headReq u, NetCall.getReq u]) := by
            simp [validateUrlWithFallback, hne, hclean, hacm, hdoi, hdom, hc, hh, hs, hg]
          rw [hred]
          refine ⟨rfl, fun h => Bool.noConfusion h, fun _ => Or.inr rfl, fun _ => ?_, ?_⟩
          · exact ⟨fun _ => ⟨s, rfl, hsp⟩, fun _ => rfl⟩
          · constructor
            · intro h
              exact absurd h (by simp)
            · rintro ⟨-, ⟨s2, hs2, hn, -⟩ | ⟨s2, hs2, -, hget⟩⟩
              · have he : s = s2 := Option.some.inj hs2
                rw [← he] at hn
                exact absurd hsp hn
              · exact absurd hget (by simp)
        | some s2 =>
          have hred : validateUrlWithFallback R now st url
              = (some (s2 == 200), (checkRateLimit now (getDomain u) st).2,
                 [NetCall.headReq u, NetCall.getReq u]) := by
            simp [validateUrlWithFallback, hne, hclean, hacm, hdoi, hdom, hc, hh, hs, hg]
          rw [hred]
          refine ⟨rfl, fun h => Bool.noConfusion h, fun _ => Or.inr rfl,
            fun _ => ⟨fun _ => ⟨s, rfl, hsp⟩, fun _ => rfl⟩, ?_⟩
          constructor
          · intro h
            have h200 : s2 = 200 := by simpa using h
            exact ⟨rfl, Or.inr ⟨s, rfl, hsp, by rw [h200]⟩⟩
          · rintro ⟨-, ⟨s3, hs3, hn, -⟩ | ⟨s3, hs3, -, hget⟩⟩
            · have he : s = s3 := Option.some.inj hs3
              rw [← he] at hn
              exact absurd hsp hn
            · have h200 : s2 = 200 := Option.some.inj hget
              simp [h200]
      · have hsp : ¬(s = 403 ∨ s = 405 ∨ s = 406) := by
          intro h
          apply hs
          rcases h with h | h | h <;> simp [h]
        have hred : validateUrlWithFallback R now st url
            = (some (s == 200), (checkRateLimit now (getDomain u) st).2,
               [NetCall.headReq u]) := by
          simp [validateUrlWithFallback, hne, hclean, hacm, hdoi, hdom, hc, hh, hs]
        rw [hred]
        refine ⟨rfl, fun h => Bool.noConfusion h, fun _ => Or.inl rfl, fun _ => ?_, ?_⟩
        · constructor
          · intro h
            exact absurd h (by simp)
          · rintro ⟨s3, hs3, h3⟩
            have he : s = s3 := Option.some.inj hs3
            rw [← he] at h3
            exact absurd h3 hsp
        · constructor
          · intro h
            have h200 : s = 200 := by simpa using h
            exact ⟨rfl, Or.inl ⟨s, rfl, hsp, h200⟩⟩
          · rintro ⟨-, ⟨s3, hs3, -, h200⟩ | ⟨s3, hs3, h3, -⟩⟩
            · have he : s = s3 := Option.some.inj hs3
              have h200' : s = 200 := he.trans h200
              simp [h200']
            · have he : s = s3 := Option.some.inj hs3
              rw [← he] at h3
              exact absurd h3 hsp

/-- Witness for the amended C5 theorem: the bare URL
`http://example.com/page` against a resolver whose HEAD requests return
403 and whose GET requests return 200, starting from the fresh
rate-limiter state. -/
theorem validateUrlWithFallback_bare_url_spec_witness :
    (validateUrlWithFallback resolverHead403 0 (initialRateLimits 0)
        (strL "http://example.com/page")).2.1
      = (checkRateLimit 0 (getDomain (strL "http://example.com/page"))
          (initialRateLimits 0)).2 ∧
    ((checkRateLimit 0 (getDomain (strL "http://example.com/page"))
        (initialRateLimits 0)).1 = false →
      validateUrlWithFallback resolverHead403 0 (initialRateLimits 0)
          (strL "http://example.com/page")
        = (none, (checkRateLimit 0 (getDomain (strL "http://example.com/page"))
            (initialRateLimits 0)).2, [])) ∧
    ((checkRateLimit 0 (getDomain (strL "http://example.com/page"))
        (initialRateLimits 0)).1 = true →
      ((validateUrlWithFallback resolverHead403 0 (initialRateLimits 0)
          (strL "http://example.com/page")).2.2
         = [NetCall.headReq (strL "http://example.com/page")] ∨
       (validateUrlWithFallback resolverHead403 0 (initialRateLimits 0)
          (strL "http://example.com/page")).2.2
         = [NetCall.headReq (strL "http://example.com/page"),
            NetCall.getReq (strL "http://example.com/page")])) ∧
    ((checkRateLimit 0 (getDomain (strL "http://example.com/page"))
        (initialRateLimits 0)).1 = true →
      ((validateUrlWithFallback resolverHead403 0 (initialRateLimits 0)
          (strL "http://example.com/page")).2.2
          = [NetCall.headReq (strL "http://example.com/page"),
             NetCall.getReq (strL "http://example.com/page")] ↔
        ∃ s, resolverHead403.headStatus (strL "http://example.com/page") = some s ∧
          (s = 403 ∨ s = 405 ∨ s = 406))) ∧
    ((validateUrlWithFallback resolverHead403 0 (initialRateLimits 0)
        (strL "http://example.com/page")).1 = some true ↔
      (checkRateLimit 0 (getDomain (strL "http://example.com/page"))
          (initialRateLimits 0)).1 = true ∧
      ((∃ s, resolverHead403.headStatus (strL "http://example.com/page") = some s ∧
          ¬(s = 403 ∨ s = 405 ∨ s = 406) ∧ s = 200) ∨
       (∃ s, resolverHead403.headStatus (strL "http://example.com/page") = some s ∧
          (s = 403 ∨ s = 405 ∨ s = 406) ∧
          resolverHead403.getStatus (strL "http://example.com/page") = some 200))) :=
  validateUrlWithFallback_bare_url_spec resolverHead403 0 (initialRateLimits 0)
    (strL "http://example.com/page") (strL "http://example.com/page")
    (by decide) (by decide) (by decide) (by decide)

/-! ## C6 and C10: the style scorer -/

lemma foldBest_spec (r : Str) (l : List CitationStyle) (b : Str × ℚ) :
    (l.foldl (fun b st =>
        if b.2 < styleConfidence r st then (st.name, styleConfidence r st) else b) b = b ∧
      ∀ st ∈ l, styleConfidence r st ≤ b.2) ∨
    (∃ i : Fin l.length,
      l.foldl (fun b st =>
        if b.2 < styleConfidence r st then (st.name, styleConfidence r st) else b) b
        = ((l.get i).name, styleConfidence r (l.get i)) ∧
      b.2 < styleConfidence r (l.get i) ∧
      (∀ j : Fin l.length, styleConfidence r (l.get j) ≤ styleConfidence r (l.get i)) ∧
      (∀ j : Fin l.length, (j : Nat) < (i : Nat) →
        styleConfidence r (l.get j) < styleConfidence r (l.get i))) := by
  induction l generalizing b with
  | nil =>
    left
    exact ⟨rfl, by intro st h; cases h⟩
  | cons st rest ih =>
    rw [List.foldl_cons]
    by_cases hcmp : b.2 < styleConfidence r st
    · rw [if_pos hcmp]
      rcases ih (st.name, styleConfidence r st) with ⟨hf, hb⟩ | ⟨i, hf, hgt, hall, hstrict⟩
      · right
        refine ⟨⟨0, Nat.succ_pos _⟩, hf, hcmp, ?_, ?_⟩
        · rintro ⟨jv, hj⟩
          cases jv with
          | zero => exact le_refl _
          | succ k => exact hb _ (List.get_mem rest k (by simpa using hj))
        · rintro ⟨jv, hj⟩ hlt
          exact absurd hlt (Nat.not_lt_zero _)
      · right
        refine ⟨⟨i.1 + 1, Nat.succ_lt_succ i.2⟩, hf, lt_trans hcmp hgt, ?_, ?_⟩
        · rintro ⟨jv, hj⟩
          cases jv with
          | zero => exact le_of_lt hgt
          | succ k => exact hall ⟨k, by simpa using hj⟩
        · rintro ⟨jv, hj⟩ hlt
          cases jv with
          | zero => exact hgt
          | succ k => exact hstrict ⟨k, by simpa using hj⟩ (by simpa using hlt)
    · rw [if_neg hcmp]
      rcases ih b with ⟨hf, hb⟩ | ⟨i, hf, hgt, hall, hstrict⟩
      · left
        refine ⟨hf, ?_⟩
        intro st' hst'
        rcases List.mem_cons.mp hst' with rfl | hmem
        · exact not_lt.mp hcmp
        · exact hb st' hmem
      · right
        refine ⟨⟨i.1 + 1, Nat.succ_lt_succ i.2⟩, hf, hgt, ?_, ?_⟩
        · rintro ⟨jv, hj⟩
          cases jv with
          | zero => exact le_trans (not_lt.mp hcmp) (le_of_lt hgt)
          | succ k => exact hall ⟨k, by simpa using hj⟩
        · rintro ⟨jv, hj⟩ hlt
          cases jv with
          | zero => exact lt_of_le_of_lt (not_lt.mp hcmp) hgt
          | succ k => exact hstrict ⟨k, by simpa using hj⟩ (by simpa using hlt)

lemma detectCitationStyle_cases (reference : Str) :
    detectCitationStyle reference = (strL "Unknown", 0) ∨
    ∃ i : Fin citationStyleList.length,
      detectCitationStyle reference
        = ((citationStyleList.get i).name,
            styleConfidence (pyStrip reference) (citationStyleList.get i)) ∧
      3 / 10 ≤ styleConfidence (pyStrip reference) (citationStyleList.get i) ∧
      (∀ j : Fin citationStyleList.length,
        styleConfidence (pyStrip reference) (citationStyleList.get j)
          ≤ styleConfidence (pyStrip reference) (citationStyleList.get i)) ∧
      (∀ j : Fin citationStyleList.length, (j : Nat) < (i : Nat) →
        styleConfidence (pyStrip reference) (citationStyleList.get j)
          < styleConfidence (pyStrip reference) (citationStyleList.get i)) := by
  simp only [detectCitationStyle]
  rcases foldBest_spec (pyStrip reference) citationStyleList (strL "Unknown", 0) with
    ⟨hf, -⟩ | ⟨i, hf, hgt, hall, hstrict⟩
  · rw [hf]
    left
    simp
  · rw [hf]
    by_cases hth : styleConfidence (pyStrip reference) (citationStyleList.get i) < 3 / 10
    · left
      have h2 : ((citationStyleList.get i).name,
          styleConfidence (pyStrip reference) (citationStyleList.get i)).2 < 3 / 10 := hth
      rw [if_pos h2]
    · right
      have h2 : ¬((citationStyleList.get i).name,
          styleConfidence (pyStrip reference) (citationStyleList.get i)).2 < 3 / 10 := hth
      rw [if_neg h2]
      exact ⟨i, rfl, not_lt.mp hth, hall, hstrict⟩

lemma styleConfidence_eq_zero (r : Str) (st : CitationStyle)
    (h1 : st.patterns.any (fun p => p r) = false)
    (h2 : st.yearPattern r = false) (h3 : st.authorPattern r = false)
    (h4 : st.commonPunctuation.countP (fun kv => occursIn kv.2 r) = 0) :
    styleConfidence r st = 0 := by
  simp only [styleConfidence, styleScore, styleMaxScore, h1, h2, h3, h4]
  norm_num

lemma styleScore_le_four (r : Str) (st : CitationStyle) : styleScore r st ≤ 4 := by
  unfold styleScore
  have h1 : (if st.patterns.any (fun p => p r) then (1 : ℚ) else 0) ≤ 1 := by
    split <;> norm_num
  have h2 : (if st.yearPattern r then (1 : ℚ) else 0) ≤ 1 := by split <;> norm_num
  have h3 : (if st.authorPattern r then (1 : ℚ) else 0) ≤ 1 := by split <;> norm_num
  have h4 : ((st.commonPunctuation.countP (fun kv => occursIn kv.2 r) : ℚ)
      / (st.commonPunctuation.length : ℚ)) ≤ 1 := by
    rcases Nat.eq_zero_or_pos st.commonPunctuation.length with h | h
    · rw [h]
      norm_num
    · rw [div_le_one (by exact_mod_cast h)]
      exact_mod_cast List.countP_le_length _
  linarith

lemma styleConfidence_le_twoThirds (r : Str) (st : CitationStyle)
    (hp : 3 ≤ st.patterns.length) : styleConfidence r st ≤ 2 / 3 := by
  unfold styleConfidence styleMaxScore
  have hms : (6 : ℚ) ≤ (st.patterns.length : ℚ) + 3 := by
    have h3 : (3 : ℚ) ≤ (st.patterns.length : ℚ) := by exact_mod_cast hp
    linarith
  calc styleScore r st / ((st.patterns.length : ℚ) + 3)
      ≤ 4 / 6 := div_le_div₀ (by norm_num) (styleScore_le_four r st) (by norm_num) hms
    _ = 2 / 3 := by norm_num

lemma citationStyles_three_patterns :
    ∀ st ∈ citationStyleList, 3 ≤ st.patterns.length := by
  intro st hst
  rcases hst with _ | ⟨_, _ | ⟨_, _ | ⟨_, _ | ⟨_, _ | ⟨_, h⟩⟩⟩⟩⟩
  · decide
  · decide
  · decide
  · decide
  · decide
  · cases h

lemma detectConf_le_twoThirds (reference : Str) :
    (detectCitationStyle reference).2 ≤ 2 / 3 := by
  rcases detectCitationStyle_cases reference with h | ⟨i, h, -, -, -⟩
  · rw [h]
    norm_num
  · rw [h]
    exact styleConfidence_le_twoThirds _ _
      (citationStyles_three_patterns _ (List.get_mem citationStyleList i.1 i.2))

/-- C6: `detect_citation_style` always returns either `("Unknown", 0.0)`
or one of the five registered style names with a confidence of at least
0.3 that is maximal among all styles, ties broken in favour of the
earlier style in registry order (every strictly earlier style scores
strictly lower); and on the empty string the detector reports
`("Unknown", 0.0)` while the segmenter returns no references. -/
theorem detectCitationStyle_total_spec :
    (∀ reference : Str,
      detectCitationStyle reference = (strL "Unknown", 0) ∨
      ∃ i : Fin citationStyleList.length,
        detectCitationStyle reference
          = ((citationStyleList.get i).name,
              styleConfidence (pyStrip reference) (citationStyleList.get i)) ∧
        3 / 10 ≤ styleConfidence (pyStrip reference) (citationStyleList.get i) ∧
        (∀ j : Fin citationStyleList.length,
          styleConfidence (pyStrip reference) (citationStyleList.get j)
            ≤ styleConfidence (pyStrip reference) (citationStyleList.get i)) ∧
        (∀ j : Fin citationStyleList.length, (j : Nat) < (i : Nat) →
          styleConfidence (pyStrip reference) (citationStyleList.get j)
            < styleConfidence (pyStrip reference) (citationStyleList.get i))) ∧
    detectCitationStyle (strL "") = (strL "Unknown", 0) ∧
    extractReferencesMultiline (strL "") = [] := by
  refine ⟨detectCitationStyle_cases, ?_, by decide⟩
  have hstrip : pyStrip (strL "") = strL "" := by decide
  have eA : styleConfidence (strL "") apaStyle = 0 :=
    styleConfidence_eq_zero _ _ (by decide) (by decide) (by decide) (by decide)
  have eM : styleConfidence (strL "") mlaStyle = 0 :=
    styleConfidence_eq_zero _ _ (by decide) (by decide) (by decide) (by decide)
  have eC : styleConfidence (strL "") chicagoStyle = 0 :=
    styleConfidence_eq_zero _ _ (by decide) (by decide) (by decide) (by decide)
  have eI : styleConfidence (strL "") ieeeStyle = 0 :=
    styleConfidence_eq_zero _ _ (by decide) (by decide) (by decide) (by decide)
  have eAC : styleConfidence (strL "") acmStyle = 0 :=
    styleConfidence_eq_zero _ _ (by decide) (by decide) (by decide) (by decide)
  simp only [detectCitationStyle, hstrip, citationStyleList, List.foldl_cons,
    List.foldl_nil, eA, eM, eC, eI, eAC]
  norm_num

/-- C10: the confidence of `detect_citation_style` can never reach the
0.8 `High confidence` band of `format_style_confidence`: each raw style
score is at most 4 while every registered style's `max_score` is at
least 6, so every returned confidence is at most 2/3. -/
theorem detectConfidence_bounded :
    (∀ st ∈ citationStyleList, (∀ r : Str, styleScore r st ≤ 4) ∧
      (6 : ℚ) ≤ styleMaxScore st) ∧
    (∀ reference : Str, (detectCitationStyle reference).2 ≤ 2 / 3) ∧
    (∀ reference : Str,
      confidenceText ((detectCitationStyle reference).2) ≠ strL "High confidence") := by
  refine ⟨?_, detectConf_le_twoThirds, ?_⟩
  · intro st hst
    refine ⟨fun r => styleScore_le_four r st, ?_⟩
    unfold styleMaxScore
    have h3 : (3 : ℚ) ≤ (st.patterns.length : ℚ) := by
      exact_mod_cast citationStyles_three_patterns st hst
    linarith
  · intro reference
    have hlt : ¬((detectCitationStyle reference).2 ≥ 8 / 10) := by
      have h := detectConf_le_twoThirds reference
      intro hge
      linarith
    simp only [confidenceText]
    rw [if_neg hlt]
    split <;> decide

/-! ## C1: the no-header identity of the section splitter -/

lemma occursIn_nil_needle (s : Str) : occursIn [] s = true := by
  induction s with
  | nil => rfl
  | cons c t ih => simp [occursIn]

lemma isPrefixOf_extend (n a b : Str) (h : n.isPrefixOf a = true) :
    n.isPrefixOf (a ++ b) = true := by
  induction n generalizing a with
  | nil => cases a ++ b <;> rfl
  | cons c t ih =>
    cases a with
    | nil => exact absurd h (by simp [List.isPrefixOf])
    | cons x u =>
      simp only [List.isPrefixOf, List.cons_append, Bool.and_eq_true] at h ⊢
      exact ⟨h.1, ih u h.2⟩

lemma occursIn_of_isPrefixOf (n s : Str) (h : n.isPrefixOf s = true) :
    occursIn n s = true := by
  cases s with
  | nil => exact h
  | cons c t => simp [occursIn, h]

lemma occursIn_append_expand (n a b : Str) (h : occursIn n a = true) :
    occursIn n (a ++ b) = true := by
  induction a with
  | nil =>
    have hn : n = [] := by
      cases n with
      | nil => rfl
      | cons c t => exact absurd h (by simp [occursIn, List.isPrefixOf])
    rw [hn]
    exact occursIn_nil_needle _
  | cons c t ih =>
    simp only [occursIn, Bool.or_eq_true] at h
    rcases h with h | h
    · exact occursIn_of_isPrefixOf n ((c :: t) ++ b) (isPrefixOf_extend n (c :: t) b h)
    · have h2 := ih h
      show occursIn n (c :: (t ++ b)) = true
      simp [occursIn, h2]

lemma occursIn_append_shift (n a s : Str) (h : occursIn n s = true) :
    occursIn n (a ++ s) = true := by
  induction a with
  | nil => exact h
  | cons c t ih => simp [occursIn, ih]

lemma occursIn_of_suffix (n s r : Str) (hs : r <:+ s) (h : occursIn n r = true) :
    occursIn n s = true := by
  rcases hs with ⟨a, rfl⟩
  exact occursIn_append_shift n a r h

lemma occursIn_of_take (n s : Str) (k : Nat) (h : occursIn n (s.take k) = true) :
    occursIn n s = true := by
  have := occursIn_append_expand n (s.take k) (s.drop k) h
  rwa [List.take_append_drop] at this

lemma occursIn_of_pyStrip (n s : Str) (h : occursIn n (pyStrip s) = true) :
    occursIn n s = true := by
  unfold pyStrip pyRstrip pyLstrip at h
  exact occursIn_of_suffix n s _ (List.dropWhile_suffix pyIsSpace)
    (occursIn_of_take n _ _ h)

lemma occursIn_pyStrip_false (n s : Str) (h : occursIn n s = false) :
    occursIn n (pyStrip s) = false := by
  cases hc : occursIn n (pyStrip s) with
  | false => rfl
  | true => exact absurd (occursIn_of_pyStrip n s hc) (by simp [h])

lemma dOne_suffix (p : Char → Bool) : ∀ s r, dOne p s = some r → r <:+ s := by
  intro s r h
  cases s with
  | nil => exact absurd h (by simp [dOne])
  | cons c t =>
    have hd : dOne p (c :: t) = if p c then some t else none := rfl
    rw [hd] at h
    split at h
    · rw [← Option.some.inj h]
      exact List.suffix_cons c t
    · exact absurd h (by simp)

lemma dLit_suffix (l : Str) : ∀ s r, dLit l s = some r → r <:+ s := by
  intro s r h
  unfold dLit at h
  split at h
  · rw [← Option.some.inj h]
    exact List.drop_suffix _ _
  · exact absurd h (by simp)

lemma dPlus_suffix (p : Char → Bool) : ∀ s r, dPlus p s = some r → r <:+ s := by
  intro s r h
  cases s with
  | nil => exact absurd h (by simp [dPlus])
  | cons c t =>
    have hd : dPlus p (c :: t) = if p c then some (t.dropWhile p) else none := rfl
    rw [hd] at h
    split at h
    · rw [← Option.some.inj h]
      exact (List.dropWhile_suffix p).trans (List.suffix_cons c t)
    · exact absurd h (by simp)

lemma dStar_suffix (p : Char → Bool) (s : Str) : dStar p s <:+ s :=
  List.dropWhile_suffix p

lemma dOptCh_suffix (c : Char) (s : Str) : dOptCh c s <:+ s := by
  cases s with
  | nil => exact List.suffix_refl _
  | cons x t =>
    have hd : dOptCh c (x :: t) = if x == c then t else x :: t := rfl
    rw [hd]
    split
    · exact List.suffix_cons x t
    · exact List.suffix_refl _

lemma dSeq_suffix (f g : Str → Option Str)
    (hf : ∀ s r, f s = some r → r <:+ s) (hg : ∀ s r, g s = some r → r <:+ s) :
    ∀ s r, dSeq f g s = some r → r <:+ s := by
  intro s r h
  unfold dSeq at h
  cases hfs : f s with
  | none => rw [hfs] at h; exact absurd h (by simp)
  | some m =>
    rw [hfs] at h
    exact (hg m r h).trans (hf s m hfs)

lemma dSection_suffix : ∀ s r, dSection s = some r → r <:+ s := by
  intro s r h
  unfold dSection at h
  cases hfs : dLit (strL "section") s with
  | none => rw [hfs] at h; exact absurd h (by simp)
  | some m =>
    rw [hfs] at h
    exact (dPlus_suffix pyIsSpace m r h).trans (dLit_suffix _ s m hfs)

lemma headerThen_occurs (tail : Str → Bool) (s : Str)
    (h : headerThen tail s = true) : ∃ hd ∈ refHeaders, occursIn hd s = true := by
  unfold headerThen at h
  rcases List.any_eq_true.mp h with ⟨hd, hmem, hh⟩
  simp only [Bool.and_eq_true] at hh
  rcases hh with ⟨hpre, -⟩
  exact ⟨hd, hmem, occursIn_of_isPrefixOf hd s hpre⟩

lemma dThen_headerThen_occurs (f : Str → Option Str) (tail : Str → Bool) (s : Str)
    (hsuf : ∀ r, f s = some r → r <:+ s)
    (h : dThen f (headerThen tail) s = true) :
    ∃ hd ∈ refHeaders, occursIn hd s = true := by
  unfold dThen at h
  cases hf : f s with
  | none => rw [hf] at h; exact absurd h (by simp)
  | some r =>
    rw [hf] at h
    rcases headerThen_occurs tail r h with ⟨hd, hmem, hocc⟩
    exact ⟨hd, hmem, occursIn_of_suffix hd s r (hsuf r hf) hocc⟩

lemma hdrNumTail_occurs (cls : Char → Bool) (s : Str)
    (h : hdrNumTail cls s = true) : ∃ hd ∈ refHeaders, occursIn hd s = true := by
  unfold hdrNumTail at h
  refine dThen_headerThen_occurs _ _ s ?_ h
  intro r hr
  cases hp : dPlus cls s with
  | none => rw [hp] at hr; exact absurd hr (by simp)
  | some m =>
    rw [hp] at hr
    exact ((dPlus_suffix pyIsSpace _ r hr).trans
      ((dOptCh_suffix '.' m).trans (dPlus_suffix cls s m hp)))

lemma hdrP_occurs (p : Str → Bool) (hp : p ∈ headerPatterns) (s : Str)
    (h : p s = true) : ∃ hd ∈ refHeaders, occursIn hd s = true := by
  simp only [headerPatterns, List.mem_cons, List.not_mem_nil, or_false] at hp
  rcases hp with rfl | rfl | rfl | rfl | rfl | rfl | rfl | rfl | rfl | rfl
  · exact headerThen_occurs _ s h
  · refine dThen_headerThen_occurs _ _ s ?_ h
    exact dSeq_suffix _ _ (dLit_suffix _)
      (dSeq_suffix _ _ (dPlus_suffix _)
        (dSeq_suffix _ _ (dPlus_suffix _) (dPlus_suffix _))) s
  · unfold hdrP3 at h
    rcases Bool.or_eq_true_iff.mp h with h1 | h1
    · cases hsec : dSection s with
      | none => rw [hsec] at h1; exact absurd h1 (by simp)
      | some r =>
        rw [hsec] at h1
        rcases hdrNumTail_occurs _ r h1 with ⟨hd, hmem, hocc⟩
        exact ⟨hd, hmem, occursIn_of_suffix hd s r (dSection_suffix s r hsec) hocc⟩
    · exact hdrNumTail_occurs _ s h1
  · unfold hdrP4 at h
    rcases Bool.or_eq_true_iff.mp h with h1 | h1
    · cases hsec : dSection s with
      | none => rw [hsec] at h1; exact absurd h1 (by simp)
      | some r =>
        rw [hsec] at h1
        rcases hdrNumTail_occurs _ r h1 with ⟨hd, hmem, hocc⟩
        exact ⟨hd, hmem, occursIn_of_suffix hd s r (dSection_suffix s r hsec) hocc⟩
    · exact hdrNumTail_occurs _ s h1
  · refine dThen_headerThen_occurs _ _ s ?_ h
    refine dSeq_suffix _ _ (dLit_suffix _) (dSeq_suffix _ _ (dPlus_suffix _) ?_) s
    intro s2 r hr
    cases ho : dOne isLowerCh s2 with
    | none => rw [ho] at hr; exact absurd hr (by simp)
    | some r2 =>
      rw [ho] at hr
      rw [← Option.some.inj hr]
      exact ((dStar_suffix pyIsSpace _).trans
        ((dOptCh_suffix ':' _).trans ((dStar_suffix pyIsSpace _).trans
          ((dOptCh_suffix '.' r2).trans (dOne_suffix isLowerCh s2 r2 ho)))))
  · exact dThen_headerThen_occurs _ _ s
      (dSeq_suffix _ _ (dPlus_suffix _) (dPlus_suffix _) s) h
  · exact dThen_headerThen_occurs _ _ s (dPlus_suffix _ s) h
  · refine dThen_headerThen_occurs _ _ s ?_ h
    intro r hr
    cases hl : dLit (strL "page") s with
    | none => rw [hl] at hr; exact absurd hr (by simp)
    | some m =>
      rw [hl] at hr
      rw [← Option.some.inj hr]
      exact (dStar_suffix isDigitCh m).trans (dLit_suffix _ s m hl)
  · exact headerThen_occurs _ s h
  · exact headerThen_occurs _ s h

lemma headerPatterns_none (s : Str)
    (h : ∀ hd ∈ refHeaders, occursIn hd s = false) :
    headerPatterns.any (fun p => p s) = false := by
  cases hpat : headerPatterns.any (fun p => p s) with
  | false => rfl
  | true =>
    exfalso
    rcases List.any_eq_true.mp hpat with ⟨p, hmem, hp⟩
    rcases hdrP_occurs p hmem s hp with ⟨hd, hmem2, hocc⟩
    rw [h hd hmem2] at hocc
    exact Bool.noConfusion hocc

lemma containsReferenceHeader_false (line : Str)
    (h : ∀ hd ∈ refHeaders, occursIn hd (pyStrip (toLowerStr line)) = false) :
    containsReferenceHeader line = false := by
  simp only [containsReferenceHeader]
  split
  · rfl
  · split
    · rfl
    · exact headerPatterns_none _ h

lemma findHeaderIdx_none : ∀ (lines : List Str) (i : Nat),
    (∀ l ∈ lines, containsReferenceHeader (pyStrip l) = false) →
    findHeaderIdx lines i = none := by
  intro lines
  induction lines with
  | nil => intro i _; rfl
  | cons l t ih =>
    intro i h
    unfold findHeaderIdx
    rw [h l (by simp)]
    exact ih (i + 1) (fun l2 h2 => h l2 (by simp [h2]))

lemma pageStartIdxs_nil : ∀ (lines : List Str) (i : Nat),
    (∀ l ∈ lines, isPageDelim (pyStrip l) = false) →
    pageStartIdxs lines i = [] := by
  intro lines
  induction lines with
  | nil => intro i _; rfl
  | cons l t ih =>
    intro i h
    have hl : isPageDelim (pyStrip l) = false := h l (by simp)
    have hd : pageStartIdxs (l :: t) i
        = if isPageDelim (pyStrip l) then i :: pageStartIdxs t (i + 1)
          else pageStartIdxs t (i + 1) := rfl
    rw [hd, hl, if_neg (show ¬(false = true) by decide)]
    exact ih (i + 1) (fun l2 h2 => h l2 (by simp [h2]))

set_option maxHeartbeats 2000000 in
/-- C1 counterexample: the claim's header vocabulary has six entries, but
the code recognizes two more (`reference list` and `citations`).  The
text `"Citations\nSmith, J. (2020). Title here. Journal, 5(2), 10-20."`
contains no page marker and none of the six claimed words, yet
`split_body_and_references` does not return it unchanged with an empty
references span — the `Citations` line is treated as a header. -/
theorem splitBodyAndReferences_citations_cex :
    (∀ w ∈ [strL "references", strL "bibliography", strL "works cited",
        strL "literature cited", strL "cited works", strL "sources"],
      occursIn w (toLowerStr
        (strL "Citations\nSmith, J. (2020). Title here. Journal, 5(2), 10-20."))
        = false) ∧
    (∀ l ∈ splitOnCh '\n'
        (strL "Citations\nSmith, J. (2020). Title here. Journal, 5(2), 10-20."),
      isPageDelim (pyStrip l) = false) ∧
    splitBodyAndReferences
        (strL "Citations\nSmith, J. (2020). Title here. Journal, 5(2), 10-20.")
      ≠ (strL "Citations\nSmith, J. (2020). Title here. Journal, 5(2), 10-20.", []) := by
  refine ⟨by decide, by decide, ?_⟩
  decide

/-- C1 (amended): for every text of at most 50 lines in which no line
contains a page-boundary marker and no line's lowercase form contains
any of the code's eight header words (`references`, `bibliography`,
`works cited`, `literature cited`, `cited works`, `sources`,
`reference list`, `citations`), `split_body_and_references` returns the
text unchanged with an empty references span. -/
theorem splitBodyAndReferences_id_of_no_markers (text : Str)
    (hhead : ∀ l ∈ splitOnCh '\n' text, ∀ hd ∈ refHeaders,
      occursIn hd (toLowerStr (pyStrip l)) = false)
    (hpage : ∀ l ∈ splitOnCh '\n' text, isPageDelim (pyStrip l) = false)
    (hlen : (splitOnCh '\n' text).length ≤ 50) :
    splitBodyAndReferences text = (text, []) := by
  have hfh : findHeaderIdx (splitOnCh '\n' text) 0 = none := by
    refine findHeaderIdx_none _ 0 (fun l hl => containsReferenceHeader_false _ ?_)
    intro hd hm
    exact occursIn_pyStrip_false hd _ (hhead l hl hd hm)
  have hps : pageStartIdxs (splitOnCh '\n' text) 0 = [] :=
    pageStartIdxs_nil _ 0 hpage
  have htp : thirdPass (splitOnCh '\n' text) = none := by
    unfold thirdPass
    rw [if_neg (by simpa using Nat.not_lt.mpr hlen)]
  simp [splitBodyAndReferences, hfh, hps, htp, secondPassGo]

/-- Witness for the amended C1 theorem on the two-line text
`"hello\nworld"`. -/
theorem splitBodyAndReferences_id_witness :
    splitBodyAndReferences (strL "hello\nworld") = (strL "hello\nworld", []) :=
  splitBodyAndReferences_id_of_no_markers (strL "hello\nworld")
    (by decide) (by decide) (by decide)

end PDFCitation
